import Mathlib

/-!
# go-httputils: declarative struct validation

A shallow embedding of `ValidateStruct`, `isZeroValue` and `getFieldName`
(src/utils.go) together with the small part of the Go standard library they
lean on: reflective values and kinds, struct tags and `strconv.Atoi`.

Conventions of the embedding

* A Go `string` is a Lean `String` (valid UTF-8). The Go builtin `len` on a
  string is the number of bytes, `String.utf8ByteSize`; the number of
  characters is `String.length`.
* A `reflect.Value` is the inductive `Value`: the constructor fixes the kind and
  carries what the accessors of that kind can read.
* A reflective accessor called on a kind it does not support makes Go stop with
  a run-time fault. Accessors therefore return `Except Panic _`, and so does
  every function that calls one.
* `int` is the 64 bit signed integer.
* The `http.ResponseWriter` of response.go is the response of the net/http
  server: `WriteHeader` faults on a code outside 100..999 and fixes the final
  status on its first call with a code that is not interim, `Write` refuses a
  body under a status that allows none. `http.StatusText` and `json.Marshal`
  are parameters of the writers.
-/

namespace httputils

/-! ## reflect: kinds and values -/

/-- The kinds of `reflect.Kind`, in the order of the Go declaration. -/
inductive Kind where
  | Invalid | Bool
  | Int | Int8 | Int16 | Int32 | Int64
  | Uint | Uint8 | Uint16 | Uint32 | Uint64 | Uintptr
  | Float32 | Float64 | Complex64 | Complex128
  | Array | Chan | Func | Interface | Map | Ptr | Slice | String | Struct
  | UnsafePointer
  deriving DecidableEq, Repr

/-- Signed integer types. -/
inductive IntKind where
  | Int | Int8 | Int16 | Int32 | Int64
  deriving DecidableEq, Repr

/-- Unsigned integer types; `uintptr` is one of them. -/
inductive UintKind where
  | Uint | Uint8 | Uint16 | Uint32 | Uint64 | Uintptr
  deriving DecidableEq, Repr

/-- Floating point types. -/
inductive FloatKind where
  | Float32 | Float64
  deriving DecidableEq, Repr

/-- Complex types. -/
inductive ComplexKind where
  | Complex64 | Complex128
  deriving DecidableEq, Repr

/-- An IEEE 754 binary floating point datum, by its three bit fields. -/
structure FloatBits where
  sign : Bool
  exponent : Nat
  mantissa : Nat
  deriving DecidableEq, Repr

/-- The Go comparison `f == 0`: true of both signed zeros and of nothing else
(a NaN has every exponent bit set, a subnormal has a mantissa bit set). -/
def FloatBits.eqZero (f : FloatBits) : Bool :=
  f.exponent == 0 && f.mantissa == 0

/-- A struct tag, `reflect.StructTag`, as its list of `key:"value"` pairs in
the order they are written. -/
abbrev StructTag := List (String × String)

/-- Go `StructTag.Get`: the value of the first pair with that key, and the empty
string when there is none. -/
def StructTag.Get : StructTag → String → String
  | [], _ => ""
  | (k, v) :: rest, key => if k = key then v else StructTag.Get rest key

/-- The part of `reflect.StructField` the validator reads. -/
structure StructField where
  Name : String
  Tag : StructTag
  deriving DecidableEq, Repr

/-- A `reflect.Value`. `invalid` is the zero Value (what `reflect.ValueOf(nil)`
and `Elem` of a nil pointer give). A struct carries its fields in declaration
order, each with its `StructField` descriptor. -/
inductive Value where
  | invalid
  | bool (b : Bool)
  | int (k : IntKind) (i : Int)
  | uint (k : UintKind) (n : Nat)
  | float (k : FloatKind) (f : FloatBits)
  | complex (k : ComplexKind) (re im : FloatBits)
  | array (elems : List Value)
  | chan (isNil : Bool) (queued : Nat)
  | func (isNil : Bool)
  | iface (v : Option Value)
  | map (entries : Option (List (Value × Value)))
  | ptr (v : Option Value)
  | slice (elems : Option (List Value))
  | str (s : String)
  | struct (fields : List (StructField × Value))
  | unsafePointer (isNil : Bool)

/-- The run-time fault of the reflect package: the accessor that was called and
the kind it was called on. -/
structure Panic where
  method : String
  kind : Kind
  deriving DecidableEq, Repr

def IntKind.toKind : IntKind → Kind
  | .Int => .Int | .Int8 => .Int8 | .Int16 => .Int16 | .Int32 => .Int32
  | .Int64 => .Int64

def UintKind.toKind : UintKind → Kind
  | .Uint => .Uint | .Uint8 => .Uint8 | .Uint16 => .Uint16 | .Uint32 => .Uint32
  | .Uint64 => .Uint64 | .Uintptr => .Uintptr

def FloatKind.toKind : FloatKind → Kind
  | .Float32 => .Float32 | .Float64 => .Float64

def ComplexKind.toKind : ComplexKind → Kind
  | .Complex64 => .Complex64 | .Complex128 => .Complex128

/-- Go `Value.Kind`. -/
def Value.Kind : Value → Kind
  | .invalid => .Invalid
  | .bool _ => .Bool
  | .int k _ => k.toKind
  | .uint k _ => k.toKind
  | .float k _ => k.toKind
  | .complex k _ _ => k.toKind
  | .array _ => .Array
  | .chan _ _ => .Chan
  | .func _ => .Func
  | .iface _ => .Interface
  | .map _ => .Map
  | .ptr _ => .Ptr
  | .slice _ => .Slice
  | .str _ => .String
  | .struct _ => .Struct
  | .unsafePointer _ => .UnsafePointer

/-- Go builtin `len` on a string: its number of bytes. -/
def len (s : String) : Nat := s.utf8ByteSize

/-- Go `Value.String`: the text of a value of kind String. On any other kind Go
returns a placeholder built from the type name rather than the content; the
embedding carries no type names and marks such a call as a misuse. The
validator calls it under `Kind() == reflect.String` only. -/
def Value.String : Value → Except Panic String
  | .str s => .ok s
  | v => .error ⟨"String", v.Kind⟩

/-- Go `Value.Int`. -/
def Value.Int : Value → Except Panic Int
  | .int _ i => .ok i
  | v => .error ⟨"Int", v.Kind⟩

/-- Go `Value.Uint`. -/
def Value.Uint : Value → Except Panic Nat
  | .uint _ n => .ok n
  | v => .error ⟨"Uint", v.Kind⟩

/-- Go `Value.Float`. -/
def Value.Float : Value → Except Panic FloatBits
  | .float _ f => .ok f
  | v => .error ⟨"Float", v.Kind⟩

/-- Go `Value.IsNil`. -/
def Value.IsNil : Value → Except Panic Bool
  | .chan isNil _ => .ok isNil
  | .func isNil => .ok isNil
  | .iface v => .ok v.isNone
  | .map entries => .ok entries.isNone
  | .ptr v => .ok v.isNone
  | .slice elems => .ok elems.isNone
  | .unsafePointer isNil => .ok isNil
  | v => .error ⟨"IsNil", v.Kind⟩

/-- Go `Value.Len`. A nil slice and a nil map have length zero. -/
def Value.Len : Value → Except Panic Nat
  | .array elems => .ok elems.length
  | .chan _ queued => .ok queued
  | .map entries => .ok (entries.getD []).length
  | .slice elems => .ok (elems.getD []).length
  | .str s => .ok (len s)
  | v => .error ⟨"Len", v.Kind⟩

/-- Go `Value.Elem`: the pointee of a pointer or the content of an interface,
the zero Value when that pointer or interface is nil. -/
def Value.Elem : Value → Except Panic Value
  | .ptr v => .ok (v.getD .invalid)
  | .iface v => .ok (v.getD .invalid)
  | v => .error ⟨"Elem", v.Kind⟩

/-- Go `Value.Bool`. -/
def Value.Bool : Value → Except Panic Bool
  | .bool b => .ok b
  | v => .error ⟨"Bool", v.Kind⟩

/-- The fields of a struct value: `NumField` is the length of the list,
`Field(i)` and `Type().Field(i)` are the two components of its entry `i`. -/
def Value.Fields : Value → Except Panic (List (StructField × Value))
  | .struct fields => .ok fields
  | v => .error ⟨"NumField", v.Kind⟩

/-! ## strconv.Atoi -/

/-- The value of a run of decimal digits, most significant first, continuing
from `acc`; `none` as soon as a byte is not a digit. -/
def digitsValue : List Char → Nat → Option Nat
  | [], acc => some acc
  | c :: cs, acc =>
    if '0' ≤ c ∧ c ≤ '9' then digitsValue cs (acc * 10 + (c.toNat - '0'.toNat))
    else none

/-- Go `strconv.Atoi` on a 64 bit platform, `some n` when `err == nil`: an
optional sign, then one or more decimal digits, the value within
`[-2^63, 2^63 - 1]`. -/
def Atoi (s : String) : Option Int :=
  match s.data with
  | [] => none
  | c :: cs =>
    if c = '-' then
      match cs with
      | [] => none
      | _ :: _ =>
        match digitsValue cs 0 with
        | some n => if n ≤ 2 ^ 63 then some (-(n : Int)) else none
        | none => none
    else if c = '+' then
      match cs with
      | [] => none
      | _ :: _ =>
        match digitsValue cs 0 with
        | some n => if n < 2 ^ 63 then some (n : Int) else none
        | none => none
    else
      match digitsValue (c :: cs) 0 with
      | some n => if n < 2 ^ 63 then some (n : Int) else none
      | none => none

/-! ## apperror and net/http -/

/-- Modelled from the spec: the application error of the go-apperror library,
whose source is not part of the repository: the HTTP status it carries and its
message. -/
structure AppError where
  Code : Nat
  Message : String
  deriving DecidableEq, Repr

/-- Modelled from the spec: Go `apperror.NewAppError(code, message, nil)` of the
same library, an error carrying that status and that message. -/
def NewAppError (code : Nat) (message : String) : AppError := ⟨code, message⟩

/-- Go `http.StatusBadRequest`. -/
def StatusBadRequest : Nat := 400

/-! ## src/utils.go -/

/-- Go `isZeroValue` (utils.go 108-127). -/
def isZeroValue (v : Value) : Except Panic Bool :=
  match v.Kind with
  | .String => do return (← v.String) == ""
  | .Int | .Int8 | .Int16 | .Int32 | .Int64 => do return (← v.Int) == 0
  | .Uint | .Uint8 | .Uint16 | .Uint32 | .Uint64 => do return (← v.Uint) == 0
  | .Float32 | .Float64 => do return (← v.Float).eqZero
  | .Bool => do return !(← v.Bool)
  | .Ptr | .Interface => v.IsNil
  | .Slice | .Array | .Map => do return (← v.Len) == 0
  | _ => .ok false

/-- Go `strings.Index(s, ",")`: the position of the first comma, `none` for -1.
The position counts characters; as a comma is a single byte that never occurs
inside a longer UTF-8 sequence, cutting there cuts at the same place as the byte
index does. -/
def indexComma : List Char → Option Nat
  | [] => none
  | c :: cs => if c = ',' then some 0 else (indexComma cs).map (· + 1)

/-- Go `getFieldName` (utils.go 130-142). -/
def getFieldName (field : StructField) : String :=
  let jsonTag := field.Tag.Get "json"
  if jsonTag ≠ "" then
    let jsonTag :=
      match indexComma jsonTag.data with
      | some idx => String.mk (jsonTag.data.take idx)
      | none => jsonTag
    if jsonTag ≠ "" ∧ jsonTag ≠ "-" then jsonTag else field.Name
  else field.Name

/-- The required check of one loop iteration (utils.go 45-52): `some e` when the
iteration returns `e`, `none` when control goes on to the min check. -/
def checkRequired (fieldType : StructField) (field : Value) :
    Except Panic (Option AppError) :=
  let requiredTag := fieldType.Tag.Get "required"
  if requiredTag = "true" then
    match isZeroValue field with
    | .error p => .error p
    | .ok true =>
      let fieldName := getFieldName fieldType
      .ok (some (NewAppError StatusBadRequest (fieldName ++ " is required")))
    | .ok false => .ok none
  else .ok none

/-- The min check of one loop iteration (utils.go 54-71): `some e` when the
iteration returns `e`, `none` when control goes on to the next field. -/
def checkMin (fieldType : StructField) (field : Value) :
    Except Panic (Option AppError) :=
  let minTag := fieldType.Tag.Get "min"
  if minTag ≠ "" then
    match Atoi minTag with
    | some minLength =>
      if field.Kind = .String then
        match field.String with
        | .error p => .error p
        | .ok s =>
          if (len s : Int) < minLength then
            let fieldName := getFieldName fieldType
            .ok (some (NewAppError StatusBadRequest
              (fieldName ++ " must be at least " ++ minTag ++ " characters long")))
          else .ok none
      else if field.Kind = .Slice then
        match field.Len with
        | .error p => .error p
        | .ok n =>
          if (n : Int) < minLength then
            let fieldName := getFieldName fieldType
            .ok (some (NewAppError StatusBadRequest
              (fieldName ++ " must have at least " ++ minTag ++ " items")))
          else .ok none
      else .ok none
    | none => .ok none
  else .ok none

/-- One iteration of the loop over the fields (utils.go 42-71). -/
def checkField (fieldType : StructField) (field : Value) :
    Except Panic (Option AppError) :=
  match checkRequired fieldType field with
  | .error p => .error p
  | .ok (some e) => .ok (some e)
  | .ok none => checkMin fieldType field

/-- The loop `for i := 0; i < val.NumField(); i++` (utils.go 41-74) over the
fields not yet visited, in declaration order. -/
def validateFields : List (StructField × Value) → Except Panic (Option AppError)
  | [] => .ok none
  | (fieldType, field) :: rest =>
    match checkField fieldType field with
    | .error p => .error p
    | .ok (some e) => .ok (some e)
    | .ok none => validateFields rest

/-- Go `ValidateStruct` (utils.go 30-75). The argument is `reflect.ValueOf(v)`;
the result `none` is the nil error. -/
def ValidateStruct (v : Value) : Except Panic (Option AppError) :=
  let val := v
  match (if val.Kind = .Ptr then val.Elem else .ok val) with
  | .error p => .error p
  | .ok val =>
    if val.Kind ≠ .Struct then .ok none
    else
      match val.Fields with
      | .error p => .error p
      | .ok fields => validateFields fields


deriving instance DecidableEq for Except

/-! ## The constraints, as the specification words them -/

/-- The field is tagged `required:"true"` and `isZeroValue` finds it empty. -/
def requiredViolated (fieldType : StructField) (field : Value) : Prop :=
  fieldType.Tag.Get "required" = "true" ∧ isZeroValue field = .ok true

/-- The field has a min tag that parses as an integer `N`, and it is a text of
length (Go `len`) below `N` or a slice of fewer than `N` elements. -/
def minViolated (fieldType : StructField) (field : Value) : Prop :=
  ∃ N : Int, Atoi (fieldType.Tag.Get "min") = some N ∧
    ((∃ s, field = .str s ∧ (len s : Int) < N) ∨
     (∃ elems, field = .slice elems ∧ (((elems.getD []).length : Nat) : Int) < N))

/-- The field carries neither a required nor a min tag. -/
def unconstrained (fieldType : StructField) : Prop :=
  ∀ kv ∈ fieldType.Tag, kv.1 ≠ "required" ∧ kv.1 ≠ "min"

/-- The message of a presence violation. -/
def requiredError (fieldType : StructField) : AppError :=
  ⟨400, getFieldName fieldType ++ " is required"⟩

/-- The message of a size violation on a text field, with the threshold
rendered as `shown`. -/
def minCharsError (fieldType : StructField) (shown : String) : AppError :=
  ⟨400, getFieldName fieldType ++ " must be at least " ++ shown ++ " characters long"⟩

/-- The message of a size violation on a collection field, with the threshold
rendered as `shown`. -/
def minItemsError (fieldType : StructField) (shown : String) : AppError :=
  ⟨400, getFieldName fieldType ++ " must have at least " ++ shown ++ " items"⟩

/-- Dereferencing at most one reference: the pointee of a pointer (the zero
Value for a nil pointer), any other value unchanged. -/
def derefOnce : Value → Value
  | .ptr target => target.getD .invalid
  | v => v

/-- The tag with every pair of that key removed. -/
def StructTag.erase (tag : StructTag) (key : String) : StructTag :=
  tag.filter (fun kv => kv.1 ≠ key)

/-- The field descriptor with its min tag removed. -/
def StructField.withoutMin (fieldType : StructField) : StructField :=
  ⟨fieldType.Name, fieldType.Tag.erase "min"⟩

/-- The part of a json tag before its first comma (the whole tag when it has no
comma). -/
def namePart (jsonTag : String) : String :=
  String.mk (jsonTag.data.takeWhile (· ≠ ','))

/-- The decimal numeral of an integer, as Go `strconv.Itoa` writes it. -/
def decimal (n : Int) : String := toString n

/-- What `isZeroValue` computes, read off constructor by constructor. -/
def zeroFlag : Value → Bool
  | .str s => s == ""
  | .int _ i => i == 0
  | .uint k n => k != .Uintptr && n == 0
  | .float _ f => f.eqZero
  | .bool b => !b
  | .ptr v => v.isNone
  | .iface v => v.isNone
  | .slice elems => (elems.getD []).length == 0
  | .array elems => elems.length == 0
  | .map entries => (entries.getD []).length == 0
  | _ => false

/-- The field descriptor with its required tag removed. -/
def StructField.withoutRequired (fieldType : StructField) : StructField :=
  ⟨fieldType.Name, fieldType.Tag.erase "required"⟩

/-- Modelled from the spec: Go `(*AppError).HTTPStatus` of the same library, the
HTTP status the error carries. -/
def AppError.HTTPStatus (e : AppError) : Int := e.Code

/-! ## net/http and encoding/json, as response.go uses them -/

/-- Go `http.StatusOK`. -/
def StatusOK : Int := 200

/-- Go `http.StatusCreated`. -/
def StatusCreated : Int := 201

/-- Go `http.StatusNoContent`. -/
def StatusNoContent : Int := 204

/-- Go `http.StatusSwitchingProtocols`. -/
def StatusSwitchingProtocols : Int := 101

/-- Go `http.StatusNotModified`. -/
def StatusNotModified : Int := 304

/-- Go `http.StatusInternalServerError`. -/
def StatusInternalServerError : Int := 500

/-- Go `http.Header`, as its list of key and value pairs. -/
abbrev Header := List (String × String)

/-- Go `Header.Del`. -/
def Header.Del (h : Header) (key : String) : Header :=
  h.filter (fun kv => kv.1 ≠ key)

/-- Go `Header.Set`: afterwards the key holds that single value. -/
def Header.Set (h : Header) (key value : String) : Header :=
  h.Del key ++ [(key, value)]

/-- The run-time faults of the net/http server response: `WriteHeader` called
with a code outside 100..999 (`checkWriteHeaderCode`), and the body test reached
before any header was written. -/
inductive HTTPPanic where
  | invalidWriteHeaderCode (code : Int)
  | bodyAllowedBeforeHeader
  deriving DecidableEq, Repr

/-- The state of the `http.ResponseWriter` the net/http server hands to a
handler, for a request other than HEAD on a connection that is not hijacked:
the handler's header map, the final status once a call of `WriteHeader` has
fixed it (`none` before), the body written so far, and the interim 1xx
responses already sent. -/
structure ResponseWriter where
  header : Header
  status : Option Int
  body : String
  informational : List Int
  deriving DecidableEq, Repr

/-- Go `w.Header().Set(key, value)`. -/
def ResponseWriter.SetHeader (w : ResponseWriter) (key value : String) : ResponseWriter :=
  ⟨w.header.Set key value, w.status, w.body, w.informational⟩

/-- Go `bodyAllowedForStatus`: no body under a 1xx status, 204 and 304. -/
def bodyAllowedForStatus (status : Int) : Bool :=
  if status ≥ 100 ∧ status ≤ 199 then false
  else if status = StatusNoContent then false
  else if status = StatusNotModified then false
  else true

/-- Go `(*response).WriteHeader`. Once the final status is fixed a further call
is superfluous and changes nothing. Otherwise a code outside 100..999 is a
fault; a 1xx code other than 101 is sent as an interim response and fixes
nothing; any other code becomes the final status. -/
def ResponseWriter.WriteHeader (w : ResponseWriter) (code : Int) :
    Except HTTPPanic ResponseWriter :=
  match w.status with
  | some _ => .ok w
  | none =>
    if code < 100 ∨ code > 999 then .error (.invalidWriteHeaderCode code)
    else if code ≥ 100 ∧ code ≤ 199 ∧ code ≠ StatusSwitchingProtocols then
      .ok ⟨w.header, none, w.body, w.informational ++ [code]⟩
    else .ok ⟨w.header, some code, w.body, w.informational⟩

/-- Go `(*response).Write`: writes the header with status 200 first when no
final status is fixed; an empty write succeeds; under a status that allows no
body nothing is written and the error `http.ErrBodyNotAllowed` is returned;
otherwise the data is appended to the body. The second component tells whether
`err == nil`. -/
def ResponseWriter.Write (w : ResponseWriter) (data : String) :
    Except HTTPPanic (ResponseWriter × Bool) :=
  match (match w.status with
    | none => w.WriteHeader StatusOK
    | some _ => .ok w) with
  | .error p => .error p
  | .ok w =>
    if data = "" then .ok (w, true)
    else
      match w.status with
      | none => .error .bodyAllowedBeforeHeader
      | some status =>
        if bodyAllowedForStatus status then
          .ok (⟨w.header, w.status, w.body ++ data, w.informational⟩, true)
        else .ok (w, false)

/-- Go `http.Error`: replaces the content headers, calls `WriteHeader(code)` and
prints the message followed by a newline, ignoring the error of that write. -/
def http.Error (w : ResponseWriter) (error : String) (code : Int) :
    Except HTTPPanic ResponseWriter :=
  let h := w.header.Del "Content-Length"
  let h := h.Set "Content-Type" "text/plain; charset=utf-8"
  let h := h.Set "X-Content-Type-Options" "nosniff"
  let w : ResponseWriter := ⟨h, w.status, w.body, w.informational⟩
  match w.WriteHeader code with
  | .error p => .error p
  | .ok w =>
    match w.Write (error ++ "\n") with
    | .error p => .error p
    | .ok (w, _) => .ok w

/-- Go `ErrorInfo` (response.go 18-21). -/
structure ErrorInfo where
  Code : String
  Message : String
  deriving DecidableEq, Repr

/-- Go `Response` (response.go 11-15). `Data` is the `interface{}` payload as
the reflective value it holds, `Value.invalid` when it is nil; `Error` is `none`
for the nil pointer. -/
structure Response where
  Success : Bool
  Data : Value
  Error : Option ErrorInfo

/-- Go `json.NewEncoder(w).Encode(v)`: the value is serialized first, and an
error of the serialization is returned before anything is written; otherwise
the text and a newline go to `w.Write`, whose error is returned. `Marshal` is
`json.Marshal` on envelopes, `none` when it returns an error. The second
component tells whether `err == nil`. -/
def json.Encode (Marshal : Response → Option String) (w : ResponseWriter) (v : Response) :
    Except HTTPPanic (ResponseWriter × Bool) :=
  match Marshal v with
  | none => .ok (w, false)
  | some text => w.Write (text ++ "\n")

/-! ## src/response.go -/

/-- The closing statement of both writers (response.go 33-35 and 51-53): encode
the envelope, and on an error call `http.Error` with status 500. -/
def encodeOrFallback (Marshal : Response → Option String) (w : ResponseWriter)
    (response : Response) : Except HTTPPanic ResponseWriter :=
  match json.Encode Marshal w response with
  | .error p => .error p
  | .ok (w, false) => http.Error w "Internal Server Error" StatusInternalServerError
  | .ok (w, true) => .ok w

/-- Go `WriteJSONResponse` (response.go 24-36). -/
def WriteJSONResponse (Marshal : Response → Option String) (w : ResponseWriter)
    (statusCode : Int) (data : Value) : Except HTTPPanic ResponseWriter :=
  let w := w.SetHeader "Content-Type" "application/json"
  match w.WriteHeader statusCode with
  | .error p => .error p
  | .ok w =>
    let response : Response := ⟨decide (statusCode ≥ 200 ∧ statusCode < 300), data, none⟩
    encodeOrFallback Marshal w response

/-- Go `WriteErrorResponse` (response.go 39-54), on a non-nil `appErr`.
`StatusText` is `http.StatusText`. -/
def WriteErrorResponse (StatusText : Int → String) (Marshal : Response → Option String)
    (w : ResponseWriter) (appErr : AppError) : Except HTTPPanic ResponseWriter :=
  let w := w.SetHeader "Content-Type" "application/json"
  match w.WriteHeader appErr.HTTPStatus with
  | .error p => .error p
  | .ok w =>
    let response : Response :=
      ⟨false, .invalid, some ⟨StatusText appErr.HTTPStatus, appErr.Message⟩⟩
    encodeOrFallback Marshal w response

/-- Go `WriteSuccessResponse` (response.go 57-59). -/
def WriteSuccessResponse (Marshal : Response → Option String) (w : ResponseWriter)
    (data : Value) : Except HTTPPanic ResponseWriter :=
  WriteJSONResponse Marshal w StatusOK data

/-- Go `WriteCreatedResponse` (response.go 62-64). -/
def WriteCreatedResponse (Marshal : Response → Option String) (w : ResponseWriter)
    (data : Value) : Except HTTPPanic ResponseWriter :=
  WriteJSONResponse Marshal w StatusCreated data

/-- Go `WriteNoContentResponse` (response.go 67-69). -/
def WriteNoContentResponse (w : ResponseWriter) : Except HTTPPanic ResponseWriter :=
  w.WriteHeader StatusNoContent

/-! ## src/utils.go: query parameters -/

/-- Go `url.Values`: the parsed query, each key with its values in order. -/
abbrev Values := List (String × List String)

/-- Go `Values.Get`: the first value of the key, the empty string when the key
has none. -/
def Values.Get : Values → String → String
  | [], _ => ""
  | (k, vs) :: rest, key => if k = key then vs.headD "" else Values.Get rest key

/-- The part of `http.Request` the two readers use: `Query` is
`r.URL.Query()`. -/
structure Request where
  Query : Values
  deriving DecidableEq, Repr

/-- Go `GetPageParam` (utils.go 78-90). -/
def GetPageParam (r : Request) : Int :=
  let pageStr := r.Query.Get "page"
  if pageStr = "" then 1
  else
    match Atoi pageStr with
    | none => 1
    | some page => if page < 1 then 1 else page

/-- Go `GetLimitParam` (utils.go 93-105). -/
def GetLimitParam (r : Request) : Int :=
  let limitStr := r.Query.Get "limit"
  if limitStr = "" then 10
  else
    match Atoi limitStr with
    | none => 10
    | some limit => if limit < 1 ∨ limit > 100 then 10 else limit

/-! ## Totality and case lemmas -/

theorem isZeroValue_eq (v : Value) : isZeroValue v = .ok (zeroFlag v) := by
  cases v with
  | int k i => cases k <;> rfl
  | uint k n =>
    cases k <;>
      simp [isZeroValue, zeroFlag, Value.Kind, UintKind.toKind, Value.Uint, bind, pure,
        Except.bind, Except.pure]
  | float k f => cases k <;> rfl
  | complex k re im => cases k <;> rfl
  | _ => rfl

theorem Atoi_empty : Atoi "" = none := rfl

theorem get_of_absent (tag : StructTag) (key : String) (h : ∀ kv ∈ tag, kv.1 ≠ key) :
    StructTag.Get tag key = "" := by
  induction tag with
  | nil => rfl
  | cons kv rest ih =>
    obtain ⟨k, v⟩ := kv
    have hk : k ≠ key := h (k, v) (List.mem_cons_self _ _)
    simp only [StructTag.Get, if_neg hk]
    exact ih (fun kv hkv => h kv (List.mem_cons_of_mem _ hkv))

theorem checkRequired_eq (ft : StructField) (v : Value) :
    checkRequired ft v =
      if ft.Tag.Get "required" = "true" ∧ zeroFlag v = true then .ok (some (requiredError ft))
      else .ok none := by
  unfold checkRequired
  rw [isZeroValue_eq]
  by_cases h : ft.Tag.Get "required" = "true"
  · cases hz : zeroFlag v <;> simp [h, requiredError, NewAppError, StatusBadRequest]
  · simp [h]

theorem checkMin_str (ft : StructField) (s : String) :
    checkMin ft (.str s) =
      match Atoi (ft.Tag.Get "min") with
      | some N =>
        if (len s : Int) < N then .ok (some (minCharsError ft (ft.Tag.Get "min")))
        else .ok none
      | none => .ok none := by
  unfold checkMin
  by_cases h : ft.Tag.Get "min" = ""
  · simp [h, Atoi_empty]
  · simp [h, Value.Kind, Value.String, minCharsError, NewAppError, StatusBadRequest]

theorem checkMin_slice (ft : StructField) (elems : Option (List Value)) :
    checkMin ft (.slice elems) =
      match Atoi (ft.Tag.Get "min") with
      | some N =>
        if (((elems.getD []).length : Nat) : Int) < N then
          .ok (some (minItemsError ft (ft.Tag.Get "min")))
        else .ok none
      | none => .ok none := by
  unfold checkMin
  by_cases h : ft.Tag.Get "min" = ""
  · simp [h, Atoi_empty]
  · simp [h, Value.Kind, Value.Len, minItemsError, NewAppError, StatusBadRequest]

theorem checkMin_other (ft : StructField) (v : Value) (h1 : v.Kind ≠ .String)
    (h2 : v.Kind ≠ .Slice) : checkMin ft v = .ok none := by
  unfold checkMin
  by_cases h : ft.Tag.Get "min" = ""
  · simp [h]
  · simp only [ne_eq, h, not_false_eq_true, if_true, h1, h2, if_false]
    split <;> rfl

theorem checkMin_unparsed (ft : StructField) (v : Value)
    (h : Atoi (ft.Tag.Get "min") = none) : checkMin ft v = .ok none := by
  unfold checkMin
  by_cases h0 : ft.Tag.Get "min" = ""
  · simp [h0]
  · simp [h0, h]

theorem checkField_eq (ft : StructField) (v : Value) :
    checkField ft v =
      if ft.Tag.Get "required" = "true" ∧ zeroFlag v = true then .ok (some (requiredError ft))
      else checkMin ft v := by
  unfold checkField
  rw [checkRequired_eq]
  by_cases h : ft.Tag.Get "required" = "true" ∧ zeroFlag v = true
  · rw [if_pos h, if_pos h]
  · rw [if_neg h, if_neg h]

theorem kind_string (v : Value) (h : v.Kind = .String) : ∃ s, v = .str s := by
  cases v with
  | str s => exact ⟨s, rfl⟩
  | int k i => cases k <;> simp [Value.Kind, IntKind.toKind] at h
  | uint k i => cases k <;> simp [Value.Kind, UintKind.toKind] at h
  | float k i => cases k <;> simp [Value.Kind, FloatKind.toKind] at h
  | complex k a b => cases k <;> simp [Value.Kind, ComplexKind.toKind] at h
  | _ => simp [Value.Kind] at h

theorem kind_slice (v : Value) (h : v.Kind = .Slice) : ∃ elems, v = .slice elems := by
  cases v with
  | slice elems => exact ⟨elems, rfl⟩
  | int k i => cases k <;> simp [Value.Kind, IntKind.toKind] at h
  | uint k i => cases k <;> simp [Value.Kind, UintKind.toKind] at h
  | float k i => cases k <;> simp [Value.Kind, FloatKind.toKind] at h
  | complex k a b => cases k <;> simp [Value.Kind, ComplexKind.toKind] at h
  | _ => simp [Value.Kind] at h

theorem kind_struct (v : Value) (h : v.Kind = .Struct) : ∃ fields, v = .struct fields := by
  cases v with
  | struct fields => exact ⟨fields, rfl⟩
  | int k i => cases k <;> simp [Value.Kind, IntKind.toKind] at h
  | uint k i => cases k <;> simp [Value.Kind, UintKind.toKind] at h
  | float k i => cases k <;> simp [Value.Kind, FloatKind.toKind] at h
  | complex k a b => cases k <;> simp [Value.Kind, ComplexKind.toKind] at h
  | _ => simp [Value.Kind] at h

theorem kind_ptr (v : Value) (h : v.Kind = .Ptr) : ∃ target, v = .ptr target := by
  cases v with
  | ptr target => exact ⟨target, rfl⟩
  | int k i => cases k <;> simp [Value.Kind, IntKind.toKind] at h
  | uint k i => cases k <;> simp [Value.Kind, UintKind.toKind] at h
  | float k i => cases k <;> simp [Value.Kind, FloatKind.toKind] at h
  | complex k a b => cases k <;> simp [Value.Kind, ComplexKind.toKind] at h
  | _ => simp [Value.Kind] at h

theorem checkMin_total (ft : StructField) (v : Value) : ∃ r, checkMin ft v = .ok r := by
  by_cases h1 : v.Kind = .String
  · obtain ⟨s, rfl⟩ := kind_string v h1
    rw [checkMin_str]
    cases Atoi (ft.Tag.Get "min") with
    | none => exact ⟨_, rfl⟩
    | some N => by_cases hl : (len s : Int) < N <;> simp [hl]
  · by_cases h2 : v.Kind = .Slice
    · obtain ⟨elems, rfl⟩ := kind_slice v h2
      rw [checkMin_slice]
      cases Atoi (ft.Tag.Get "min") with
      | none => exact ⟨_, rfl⟩
      | some N => by_cases hl : (((elems.getD []).length : Nat) : Int) < N <;> simp [hl]
    · exact ⟨_, checkMin_other ft v h1 h2⟩

theorem checkField_total (ft : StructField) (v : Value) : ∃ r, checkField ft v = .ok r := by
  rw [checkField_eq]
  split
  · exact ⟨_, rfl⟩
  · exact checkMin_total ft v

theorem validateFields_cons (ft : StructField) (v : Value)
    (rest : List (StructField × Value)) :
    validateFields ((ft, v) :: rest) =
      match checkField ft v with
      | .error p => .error p
      | .ok (some e) => .ok (some e)
      | .ok none => validateFields rest := rfl

theorem validateFields_total (fields : List (StructField × Value)) :
    ∃ r, validateFields fields = .ok r := by
  induction fields with
  | nil => exact ⟨none, rfl⟩
  | cons p rest ih =>
    obtain ⟨ft, v⟩ := p
    obtain ⟨r, hr⟩ := checkField_total ft v
    rw [validateFields_cons, hr]
    cases r with
    | none => exact ih
    | some e => exact ⟨_, rfl⟩

theorem checkMin_none_iff (ft : StructField) (v : Value) :
    checkMin ft v = .ok none ↔ ¬ minViolated ft v := by
  unfold minViolated
  by_cases h1 : v.Kind = .String
  · obtain ⟨s, rfl⟩ := kind_string v h1
    rw [checkMin_str]
    cases hA : Atoi (ft.Tag.Get "min") with
    | none => simp
    | some N => by_cases hl : (len s : Int) < N <;> simp [hl]
  · by_cases h2 : v.Kind = .Slice
    · obtain ⟨elems, rfl⟩ := kind_slice v h2
      rw [checkMin_slice]
      cases hA : Atoi (ft.Tag.Get "min") with
      | none => simp
      | some N => by_cases hl : (((elems.getD []).length : Nat) : Int) < N <;> simp [hl]
    · rw [checkMin_other ft v h1 h2]
      refine iff_of_true rfl ?_
      rintro ⟨N, -, ⟨s, rfl, -⟩ | ⟨elems, rfl, -⟩⟩
      · exact h1 rfl
      · exact h2 rfl

theorem checkField_none_iff (ft : StructField) (v : Value) :
    checkField ft v = .ok none ↔ ¬ requiredViolated ft v ∧ ¬ minViolated ft v := by
  rw [checkField_eq, ← checkMin_none_iff]
  unfold requiredViolated
  rw [isZeroValue_eq]
  by_cases h : ft.Tag.Get "required" = "true" ∧ zeroFlag v = true
  · simp [h]
  · rw [if_neg h]
    have : ¬ (ft.Tag.Get "required" = "true" ∧ (Except.ok (zeroFlag v) : Except Panic Bool) = .ok true) := by
      intro hh
      exact h ⟨hh.1, by simpa using hh.2⟩
    exact ⟨fun hm => ⟨this, hm⟩, fun hh => hh.2⟩

theorem validateFields_none_iff (fields : List (StructField × Value)) :
    validateFields fields = .ok none ↔
      ∀ p ∈ fields, ¬ requiredViolated p.1 p.2 ∧ ¬ minViolated p.1 p.2 := by
  induction fields with
  | nil => simp [validateFields]
  | cons p rest ih =>
    obtain ⟨ft, v⟩ := p
    rw [validateFields_cons, List.forall_mem_cons, ← ih, ← checkField_none_iff]
    obtain ⟨r, hr⟩ := checkField_total ft v
    rw [hr]
    cases r with
    | none => simp
    | some e => simp

theorem string_append_left_cancel (a b c : String) (h : a ++ b = a ++ c) : b = c := by
  have h2 := congrArg String.data h
  simp only [String.data_append] at h2
  exact String.ext (List.append_cancel_left h2)

theorem string_append_right_cancel (a b c : String) (h : a ++ c = b ++ c) : a = b := by
  have h2 := congrArg String.data h
  simp only [String.data_append] at h2
  exact String.ext (List.append_cancel_right h2)

theorem requiredError_ne_minCharsError (ft : StructField) (shown : String) :
    requiredError ft ≠ minCharsError ft shown := by
  intro h
  have hm : (getFieldName ft ++ " is required") =
      (getFieldName ft ++ " must be at least " ++ shown ++ " characters long") :=
    congrArg AppError.Message h
  rw [String.append_assoc, String.append_assoc] at hm
  have h2 := congrArg String.data (string_append_left_cancel _ _ _ hm)
  simp at h2

theorem requiredError_ne_minItemsError (ft : StructField) (shown : String) :
    requiredError ft ≠ minItemsError ft shown := by
  intro h
  have hm : (getFieldName ft ++ " is required") =
      (getFieldName ft ++ " must have at least " ++ shown ++ " items") :=
    congrArg AppError.Message h
  rw [String.append_assoc, String.append_assoc] at hm
  have h2 := congrArg String.data (string_append_left_cancel _ _ _ hm)
  simp at h2

theorem ValidateStruct_struct (fields : List (StructField × Value)) :
    ValidateStruct (.struct fields) = validateFields fields := rfl

theorem ValidateStruct_ptr_struct (fields : List (StructField × Value)) :
    ValidateStruct (.ptr (some (.struct fields))) = validateFields fields := rfl

theorem validateFields_append (pre rest : List (StructField × Value))
    (hpre : validateFields pre = .ok none) :
    validateFields (pre ++ rest) = validateFields rest := by
  induction pre with
  | nil => rfl
  | cons p pre ih =>
    obtain ⟨ft, v⟩ := p
    rw [validateFields_cons] at hpre
    rw [List.cons_append, validateFields_cons]
    obtain ⟨r, hr⟩ := checkField_total ft v
    rw [hr] at hpre ⊢
    cases r with
    | none => exact ih hpre
    | some e => simp at hpre

theorem validateFields_first (pre post : List (StructField × Value)) (ft : StructField)
    (v : Value) (hpre : ∀ p ∈ pre, ¬ requiredViolated p.1 p.2 ∧ ¬ minViolated p.1 p.2) :
    validateFields (pre ++ (ft, v) :: post) =
      match checkField ft v with
      | .error p => .error p
      | .ok (some e) => .ok (some e)
      | .ok none => validateFields post := by
  rw [validateFields_append _ _ ((validateFields_none_iff pre).2 hpre), validateFields_cons]

theorem checkField_required (ft : StructField) (v : Value) (h : requiredViolated ft v) :
    checkField ft v = .ok (some (requiredError ft)) := by
  rw [checkField_eq, if_pos]
  refine ⟨h.1, ?_⟩
  have := h.2
  rw [isZeroValue_eq] at this
  simpa using this

theorem checkField_not_required (ft : StructField) (v : Value)
    (h : ¬ requiredViolated ft v) : checkField ft v = checkMin ft v := by
  rw [checkField_eq, if_neg]
  rintro ⟨h1, h2⟩
  exact h ⟨h1, by rw [isZeroValue_eq, h2]⟩

theorem unconstrained_passes (ft : StructField) (v : Value) (h : unconstrained ft) :
    ¬ requiredViolated ft v ∧ ¬ minViolated ft v := by
  have hr : ft.Tag.Get "required" = "" := get_of_absent _ _ (fun kv hkv => (h kv hkv).1)
  have hm : ft.Tag.Get "min" = "" := get_of_absent _ _ (fun kv hkv => (h kv hkv).2)
  constructor
  · rintro ⟨h1, -⟩
    rw [hr] at h1
    exact absurd h1 (by decide)
  · rintro ⟨N, hN, -⟩
    rw [hm, Atoi_empty] at hN
    exact absurd hN (by simp)

theorem validateStruct_first_required (pre rest : List (StructField × Value))
    (ft : StructField) (v : Value)
    (hpre : ∀ p ∈ pre, ¬ requiredViolated p.1 p.2 ∧ ¬ minViolated p.1 p.2)
    (hreq : requiredViolated ft v) :
    ValidateStruct (.struct (pre ++ (ft, v) :: rest)) = .ok (some (requiredError ft)) := by
  rw [ValidateStruct_struct, validateFields_first pre rest ft v hpre,
    checkField_required ft v hreq]

/-! ## C1: validity is exactly that every field passes -/

/-- C1: `ValidateStruct` on a structure (given directly or behind a pointer)
returns the nil error if and only if no field is both tagged `required:"true"`
and empty according to `isZeroValue`, and no field has a min tag parsing as an
integer `N` while being a text of length below `N` or a slice of fewer than `N`
elements; in particular a structure none of whose fields carries a required or a
min tag validates to nil. -/
theorem validateStruct_nil_iff_every_field_passes (fields : List (StructField × Value)) :
    (ValidateStruct (.struct fields) = .ok none ↔
      ∀ p ∈ fields, ¬ requiredViolated p.1 p.2 ∧ ¬ minViolated p.1 p.2) ∧
    (ValidateStruct (.ptr (some (.struct fields))) = .ok none ↔
      ∀ p ∈ fields, ¬ requiredViolated p.1 p.2 ∧ ¬ minViolated p.1 p.2) ∧
    ((∀ p ∈ fields, unconstrained p.1) → ValidateStruct (.struct fields) = .ok none) := by
  refine ⟨?_, ?_, ?_⟩
  · rw [ValidateStruct_struct]
    exact validateFields_none_iff fields
  · rw [ValidateStruct_ptr_struct]
    exact validateFields_none_iff fields
  · intro h
    rw [ValidateStruct_struct]
    exact (validateFields_none_iff fields).2 (fun p hp => unconstrained_passes p.1 p.2 (h p hp))

/-- C1 at a structure with two tagged but unconstrained fields, one of them
empty. -/
theorem validateStruct_nil_iff_every_field_passes_witness :
    ValidateStruct (.struct
      [(⟨"Name", [("json", "name")]⟩, .str ""),
       (⟨"Age", [("json", "age,omitempty")]⟩, .int .Int 0)]) = .ok none :=
  (validateStruct_nil_iff_every_field_passes _).2.2 (by simp [unconstrained])

/-! ## C2: a required empty field is reported, later fields are not evaluated -/

/-- C2, as stated, fails: in a structure whose fields `A` and `B` are both
required and empty, `B` is a required field holding its empty value, yet the
violation returned names `A` and not `B`. -/
theorem required_empty_field_not_named_after_earlier_violation :
    requiredViolated ⟨"B", [("required", "true")]⟩ (.str "") ∧
    ValidateStruct (.struct
      [(⟨"A", [("required", "true")]⟩, .str ""),
       (⟨"B", [("required", "true")]⟩, .str "")]) = .ok (some ⟨400, "A is required"⟩) ∧
    ValidateStruct (.struct
      [(⟨"A", [("required", "true")]⟩, .str ""),
       (⟨"B", [("required", "true")]⟩, .str "")]) ≠
      .ok (some (requiredError ⟨"B", [("required", "true")]⟩)) := by
  refine ⟨⟨rfl, rfl⟩, rfl, ?_⟩
  decide

/-- C2, amended: when a field tagged `required:"true"` is empty according to
`isZeroValue` and no field declared before it produces a violation,
`ValidateStruct` returns status 400 with the message
`<displayName> is required` for that field, and the result stays the same
whatever the fields declared after it are replaced by. -/
theorem first_required_empty_field_reported (pre post post2 : List (StructField × Value))
    (ft : StructField) (v : Value)
    (hpre : ∀ p ∈ pre, ¬ requiredViolated p.1 p.2 ∧ ¬ minViolated p.1 p.2)
    (hreq : requiredViolated ft v) :
    ValidateStruct (.struct (pre ++ (ft, v) :: post)) =
        .ok (some ⟨400, getFieldName ft ++ " is required"⟩) ∧
    ValidateStruct (.struct (pre ++ (ft, v) :: post2)) =
        ValidateStruct (.struct (pre ++ (ft, v) :: post)) := by
  have h : ∀ rest, ValidateStruct (.struct (pre ++ (ft, v) :: rest)) =
      .ok (some (requiredError ft)) :=
    fun rest => validateStruct_first_required pre rest ft v hpre hreq
  exact ⟨h post, (h post2).trans (h post).symm⟩

/-- C2 amended, at a structure whose second field is required and empty, with
two different tails. -/
theorem first_required_empty_field_reported_witness :
    ValidateStruct (.struct
      ([(⟨"ID", []⟩, .int .Int64 7)] ++
        (⟨"Name", [("required", "true")]⟩, .str "") ::
        [(⟨"Tags", [("min", "1")]⟩, .slice none)])) =
        .ok (some ⟨400, getFieldName ⟨"Name", [("required", "true")]⟩ ++ " is required"⟩) ∧
    ValidateStruct (.struct
      ([(⟨"ID", []⟩, .int .Int64 7)] ++
        (⟨"Name", [("required", "true")]⟩, .str "") ::
        [(⟨"Email", [("required", "true")]⟩, .str "")])) =
      ValidateStruct (.struct
      ([(⟨"ID", []⟩, .int .Int64 7)] ++
        (⟨"Name", [("required", "true")]⟩, .str "") ::
        [(⟨"Tags", [("min", "1")]⟩, .slice none)])) :=
  first_required_empty_field_reported _ _ _ _ _
    (by
      intro p hp
      simp only [List.mem_singleton] at hp
      subst hp
      exact unconstrained_passes _ _ (by simp [unconstrained]))
    ⟨rfl, rfl⟩

/-! ## C3: within a field, required comes before min -/

/-- C3: when the first violating field is tagged `required:"true"`, carries a
min tag parsing as `N ≥ 1`, and holds the empty text or a slice of length zero,
`ValidateStruct` returns `<displayName> is required`, and not a minimum-size
message, however the threshold is rendered, although the min check on its own
would report that field. -/
theorem required_checked_before_min (pre post : List (StructField × Value))
    (ft : StructField) (v : Value) (N : Int)
    (hpre : ∀ p ∈ pre, ¬ requiredViolated p.1 p.2 ∧ ¬ minViolated p.1 p.2)
    (hreq : ft.Tag.Get "required" = "true")
    (hmin : Atoi (ft.Tag.Get "min") = some N) (hN : 1 ≤ N)
    (hv : v = .str "" ∨ ∃ elems, v = .slice elems ∧ (elems.getD []).length = 0) :
    ValidateStruct (.struct (pre ++ (ft, v) :: post)) =
        .ok (some ⟨400, getFieldName ft ++ " is required"⟩) ∧
    (∃ e, checkMin ft v = .ok (some e)) ∧
    ∀ shown : String,
      ValidateStruct (.struct (pre ++ (ft, v) :: post)) ≠
          .ok (some ⟨400, getFieldName ft ++ " must be at least " ++ shown ++
            " characters long"⟩) ∧
      ValidateStruct (.struct (pre ++ (ft, v) :: post)) ≠
          .ok (some ⟨400, getFieldName ft ++ " must have at least " ++ shown ++
            " items"⟩) := by
  have hz : requiredViolated ft v := by
    refine ⟨hreq, ?_⟩
    rcases hv with rfl | ⟨elems, rfl, hl⟩
    · rfl
    · rw [isZeroValue_eq]
      simp [zeroFlag, hl]
  have h : ValidateStruct (.struct (pre ++ (ft, v) :: post)) =
      .ok (some ⟨400, getFieldName ft ++ " is required"⟩) :=
    validateStruct_first_required pre post ft v hpre hz
  have hm : ∃ e, checkMin ft v = .ok (some e) := by
    rcases hv with rfl | ⟨elems, rfl, hl⟩
    · rw [checkMin_str, hmin]
      have : ((len "" : Nat) : Int) < N := by
        have h0 : len "" = 0 := rfl
        rw [h0]
        exact_mod_cast hN
      simp [this]
    · rw [checkMin_slice, hmin, hl]
      have : (0 : Int) < N := by omega
      simp [this]
  refine ⟨h, hm, fun shown => ?_⟩
  rw [h]
  constructor
  · intro hc
    exact requiredError_ne_minCharsError ft shown (Option.some.inj (Except.ok.inj hc))
  · intro hc
    exact requiredError_ne_minItemsError ft shown (Option.some.inj (Except.ok.inj hc))

/-- C3 at a single field `Tags`, required with `min:"1"`, holding a nil
slice. -/
theorem required_checked_before_min_witness :
    ValidateStruct (.struct ([] ++
        (⟨"Tags", [("required", "true"), ("min", "1")]⟩, .slice none) :: [])) =
        .ok (some ⟨400, getFieldName ⟨"Tags", [("required", "true"), ("min", "1")]⟩ ++
          " is required"⟩) :=
  (required_checked_before_min [] [] ⟨"Tags", [("required", "true"), ("min", "1")]⟩
    (.slice none) 1 (by simp) rfl rfl (by decide) (Or.inr ⟨none, rfl, rfl⟩)).1

theorem validateStruct_at (pre post : List (StructField × Value)) (ft : StructField)
    (v : Value) (hpre : ∀ p ∈ pre, ¬ requiredViolated p.1 p.2 ∧ ¬ minViolated p.1 p.2) :
    ValidateStruct (.struct (pre ++ (ft, v) :: post)) =
      match checkField ft v with
      | .error p => .error p
      | .ok (some e) => .ok (some e)
      | .ok none => validateFields post := by
  rw [ValidateStruct_struct, validateFields_first pre post ft v hpre]

theorem validateStruct_only_constrained (pre post : List (StructField × Value))
    (ft : StructField) (v : Value) (hpre : ∀ p ∈ pre, unconstrained p.1)
    (hpost : ∀ p ∈ post, unconstrained p.1) :
    ValidateStruct (.struct (pre ++ (ft, v) :: post)) = checkField ft v := by
  rw [validateStruct_at pre post ft v (fun p hp => unconstrained_passes p.1 p.2 (hpre p hp))]
  obtain ⟨r, hr⟩ := checkField_total ft v
  rw [hr]
  cases r with
  | none =>
    exact (validateFields_none_iff post).2
      (fun p hp => unconstrained_passes p.1 p.2 (hpost p hp))
  | some e => rfl

theorem checkField_untagged_required (ft : StructField) (v : Value)
    (h : ft.Tag.Get "required" ≠ "true") : checkField ft v = checkMin ft v :=
  checkField_not_required ft v (fun hr => h hr.1)

/-! ## C4: the min check on a text field -/

/-- C4: the text `é` is one character long but two bytes long; with `min:"2"`
as the only constraint `ValidateStruct` compares the byte length with the
threshold and returns nil, where a character count below the threshold calls
for the size message. -/
theorem text_min_compares_bytes_not_characters :
    "é".length = 1 ∧ len "é" = 2 ∧ Atoi "2" = some 2 ∧
    ValidateStruct (.struct [(⟨"Name", [("min", "2")]⟩, .str "é")]) = .ok none ∧
    ValidateStruct (.struct [(⟨"Name", [("min", "2")]⟩, .str "é")]) ≠
      .ok (some ⟨400, "Name must be at least 2 characters long"⟩) := by
  decide

/-! ## C5: the min check on collection fields -/

/-- C5, as stated, fails: an empty map is a collection for `isZeroValue`, its
element count 0 is one below the threshold of `min:"1"`, and yet
`ValidateStruct` reports nothing. -/
theorem map_below_min_not_reported :
    (Value.map (some [])).Kind = .Map ∧
    Value.Len (.map (some [])) = .ok 0 ∧
    isZeroValue (.map (some [])) = .ok true ∧
    Atoi "1" = some 1 ∧
    ValidateStruct (.struct [(⟨"Labels", [("min", "1")]⟩, .map (some []))]) = .ok none ∧
    ValidateStruct (.struct [(⟨"Labels", [("min", "1")]⟩, .map (some []))]) ≠
      .ok (some ⟨400, "Labels must have at least 1 items"⟩) := by
  decide

/-- C5, amended: the min check looks at slices only. For a slice field that is
the only constrained field of its structure, not tagged `required:"true"`, with
a min tag parsing as `N`: `ValidateStruct` returns nil when the element count
is `N`, and returns status 400 with
`<displayName> must have at least <min tag> items` when the element count is
`N - 1` (which needs `N ≥ 1`). On an array or a map field the min tag has no effect and the result is
nil whatever the element count. -/
theorem slice_min_boundary (pre post : List (StructField × Value)) (ft : StructField)
    (N : Int) (hpre : ∀ p ∈ pre, unconstrained p.1) (hpost : ∀ p ∈ post, unconstrained p.1)
    (hreq : ft.Tag.Get "required" ≠ "true")
    (hmin : Atoi (ft.Tag.Get "min") = some N) :
    (∀ elems : Option (List Value), (((elems.getD []).length : Nat) : Int) = N →
      ValidateStruct (.struct (pre ++ (ft, .slice elems) :: post)) = .ok none) ∧
    (∀ elems : Option (List Value), (((elems.getD []).length : Nat) : Int) = N - 1 →
      ValidateStruct (.struct (pre ++ (ft, .slice elems) :: post)) =
        .ok (some ⟨400, getFieldName ft ++ " must have at least " ++ ft.Tag.Get "min" ++
          " items"⟩)) ∧
    (∀ elems : List Value,
      ValidateStruct (.struct (pre ++ (ft, .array elems) :: post)) = .ok none) ∧
    (∀ entries : Option (List (Value × Value)),
      ValidateStruct (.struct (pre ++ (ft, .map entries) :: post)) = .ok none) := by
  refine ⟨?_, ?_, ?_, ?_⟩
  · intro elems hn
    rw [validateStruct_only_constrained pre post ft _ hpre hpost,
      checkField_untagged_required ft _ hreq, checkMin_slice, hmin]
    have : ¬ ((((elems.getD []).length : Nat) : Int) < N) := by omega
    simp [this]
  · intro elems hn
    rw [validateStruct_only_constrained pre post ft _ hpre hpost,
      checkField_untagged_required ft _ hreq, checkMin_slice, hmin]
    have : (((elems.getD []).length : Nat) : Int) < N := by omega
    simp [this, minItemsError]
  · intro elems
    rw [validateStruct_only_constrained pre post ft _ hpre hpost,
      checkField_untagged_required ft _ hreq]
    exact checkMin_other ft _ (by simp [Value.Kind]) (by simp [Value.Kind])
  · intro entries
    rw [validateStruct_only_constrained pre post ft _ hpre hpost,
      checkField_untagged_required ft _ hreq]
    exact checkMin_other ft _ (by simp [Value.Kind]) (by simp [Value.Kind])

/-- C5 amended, at a slice of one element under `min:"2"`, between two
unconstrained fields. -/
theorem slice_min_boundary_witness :
    ValidateStruct (.struct
      ([(⟨"ID", [("json", "id")]⟩, .int .Int 1)] ++
        (⟨"Tags", [("json", "tags"), ("min", "2")]⟩, .slice (some [.str "x"])) ::
        [(⟨"Note", []⟩, .str "")])) =
      .ok (some ⟨400, getFieldName ⟨"Tags", [("json", "tags"), ("min", "2")]⟩ ++
        " must have at least " ++
        StructTag.Get [("json", "tags"), ("min", "2")] "min" ++ " items"⟩) :=
  (slice_min_boundary [(⟨"ID", [("json", "id")]⟩, .int .Int 1)] [(⟨"Note", []⟩, .str "")]
    ⟨"Tags", [("json", "tags"), ("min", "2")]⟩ 2 (by simp [unconstrained])
    (by simp [unconstrained]) (by decide) rfl).2.1 (some [.str "x"]) rfl

/-! ## C6: the wording of the size messages -/

/-- C6, as stated, fails: the tag `min:"03"` parses as 3, the empty text
violates it, and the message carries `03`, not the decimal numeral `3`. -/
theorem size_message_echoes_tag_text :
    Atoi "03" = some 3 ∧ decimal 3 = "3" ∧
    ValidateStruct (.struct [(⟨"Name", [("min", "03")]⟩, .str "")]) =
      .ok (some ⟨400, "Name must be at least 03 characters long"⟩) ∧
    ValidateStruct (.struct [(⟨"Name", [("min", "03")]⟩, .str "")]) ≠
      .ok (some ⟨400, "Name" ++ " must be at least " ++ decimal 3 ++ " characters long"⟩) := by
  decide

/-- C6, amended: when `ValidateStruct` reports a minimum-size violation for a
field whose min tag parses as `N` (no earlier field violates, the field does not
fail the required check, and its text length or slice length is below `N`), the
message is `displayName ++ " must be at least " ++ tag ++ " characters long"` for
a text field and `displayName ++ " must have at least " ++ tag ++ " items"` for a
slice field, where `tag` is the text of the min tag as written; that is the
message with the decimal numeral of `N` exactly when the tag text is that
numeral. -/
theorem size_message_uses_tag_text (pre post : List (StructField × Value))
    (ft : StructField) (N : Int)
    (hpre : ∀ p ∈ pre, ¬ requiredViolated p.1 p.2 ∧ ¬ minViolated p.1 p.2)
    (hmin : Atoi (ft.Tag.Get "min") = some N) :
    (∀ s : String, ¬ requiredViolated ft (.str s) → (len s : Int) < N →
      ValidateStruct (.struct (pre ++ (ft, .str s) :: post)) =
        .ok (some ⟨400, getFieldName ft ++ " must be at least " ++ ft.Tag.Get "min" ++
          " characters long"⟩)) ∧
    (∀ elems : Option (List Value), ¬ requiredViolated ft (.slice elems) →
      (((elems.getD []).length : Nat) : Int) < N →
      ValidateStruct (.struct (pre ++ (ft, .slice elems) :: post)) =
        .ok (some ⟨400, getFieldName ft ++ " must have at least " ++ ft.Tag.Get "min" ++
          " items"⟩)) ∧
    (getFieldName ft ++ " must be at least " ++ ft.Tag.Get "min" ++ " characters long" =
        getFieldName ft ++ " must be at least " ++ decimal N ++ " characters long" ↔
      ft.Tag.Get "min" = decimal N) ∧
    (getFieldName ft ++ " must have at least " ++ ft.Tag.Get "min" ++ " items" =
        getFieldName ft ++ " must have at least " ++ decimal N ++ " items" ↔
      ft.Tag.Get "min" = decimal N) := by
  refine ⟨?_, ?_, ?_, ?_⟩
  · intro s hreq hlt
    rw [validateStruct_at pre post ft _ hpre, checkField_not_required ft _ hreq,
      checkMin_str, hmin]
    simp [hlt, minCharsError]
  · intro elems hreq hlt
    rw [validateStruct_at pre post ft _ hpre, checkField_not_required ft _ hreq,
      checkMin_slice, hmin]
    simp [hlt, minItemsError]
  · constructor
    · intro h
      exact string_append_left_cancel _ _ _ (string_append_right_cancel _ _ _ h)
    · intro h
      rw [h]
  · constructor
    · intro h
      exact string_append_left_cancel _ _ _ (string_append_right_cancel _ _ _ h)
    · intro h
      rw [h]

/-- C6 amended, at the text `Al` under `min:"+3"`. -/
theorem size_message_uses_tag_text_witness :
    ValidateStruct (.struct ([] ++ (⟨"Name", [("min", "+3")]⟩, .str "Al") :: [])) =
      .ok (some ⟨400, getFieldName ⟨"Name", [("min", "+3")]⟩ ++ " must be at least " ++
        StructTag.Get [("min", "+3")] "min" ++ " characters long"⟩) :=
  (size_message_uses_tag_text [] [] ⟨"Name", [("min", "+3")]⟩ 3 (by simp) rfl).1 "Al"
    (fun h => absurd h.1 (by decide)) (by decide)

/-! ## C7: a min tag that does not parse is skipped -/

theorem get_erase_self (tag : StructTag) (key : String) :
    StructTag.Get (tag.erase key) key = "" :=
  get_of_absent _ _ (fun kv hkv => by
    have := (List.mem_filter.1 hkv).2
    simpa using this)

theorem get_erase_other (tag : StructTag) (key other : String) (h : other ≠ key) :
    StructTag.Get (tag.erase key) other = StructTag.Get tag other := by
  induction tag with
  | nil => rfl
  | cons kv rest ih =>
    obtain ⟨k, v⟩ := kv
    unfold StructTag.erase at ih ⊢
    by_cases hk : k = key
    · have hko : k ≠ other := fun hko => h (hko.symm.trans hk)
      simp only [List.filter, hk, ne_eq, not_true_eq_false, decide_False, StructTag.Get]
      rw [if_neg (fun hko2 => h hko2.symm)]
      exact ih
    · simp only [List.filter, hk, ne_eq, not_false_eq_true, decide_True, StructTag.Get]
      by_cases hko : k = other
      · rw [if_pos hko, if_pos hko]
      · rw [if_neg hko, if_neg hko]
        exact ih

theorem getFieldName_withoutMin (ft : StructField) :
    getFieldName ft.withoutMin = getFieldName ft := by
  have h : ft.withoutMin.Tag.Get "json" = ft.Tag.Get "json" :=
    get_erase_other ft.Tag "min" "json" (by decide)
  unfold getFieldName
  rw [h]
  rfl

theorem checkField_withoutMin (ft : StructField) (v : Value)
    (h : Atoi (ft.Tag.Get "min") = none) :
    checkField ft.withoutMin v = checkField ft v := by
  have hr : ft.withoutMin.Tag.Get "required" = ft.Tag.Get "required" :=
    get_erase_other ft.Tag "min" "required" (by decide)
  have hm : ft.withoutMin.Tag.Get "min" = "" := get_erase_self ft.Tag "min"
  rw [checkField_eq, checkField_eq, hr, checkMin_unparsed ft v h,
    checkMin_unparsed ft.withoutMin v (by rw [hm]; exact Atoi_empty)]
  unfold requiredError
  rw [getFieldName_withoutMin]

theorem validateFields_congr_at (pre post : List (StructField × Value))
    (ft ft2 : StructField) (v : Value) (h : checkField ft2 v = checkField ft v) :
    validateFields (pre ++ (ft2, v) :: post) = validateFields (pre ++ (ft, v) :: post) := by
  induction pre with
  | nil => simp only [List.nil_append, validateFields_cons, h]
  | cons p pre ih =>
    obtain ⟨pt, pv⟩ := p
    simp only [List.cons_append, validateFields_cons, ih]

/-- C7: a min tag that is missing its threshold or does not parse as an integer
is skipped. `ValidateStruct` returns the same result as for the same structure
with that min tag removed, and a field that is not tagged `required:"true"`
produces no violation under such a tag, whatever its value. -/
theorem unparsable_min_skipped (pre post : List (StructField × Value)) (ft : StructField)
    (v : Value) (h : Atoi (ft.Tag.Get "min") = none) :
    ValidateStruct (.struct (pre ++ (ft, v) :: post)) =
        ValidateStruct (.struct (pre ++ (ft.withoutMin, v) :: post)) ∧
    ft.withoutMin.Tag.Get "min" = "" ∧
    (ft.Tag.Get "required" ≠ "true" → checkField ft v = .ok none) := by
  refine ⟨?_, get_erase_self ft.Tag "min", ?_⟩
  · rw [ValidateStruct_struct, ValidateStruct_struct]
    exact (validateFields_congr_at pre post ft ft.withoutMin v
      (checkField_withoutMin ft v h)).symm
  · intro hreq
    rw [checkField_untagged_required ft v hreq]
    exact checkMin_unparsed ft v h

/-- C7 at an empty text field tagged `min:"abc"` and not required, followed by a
field with a real constraint. -/
theorem unparsable_min_skipped_witness :
    Atoi "abc" = none ∧
    (ValidateStruct (.struct ([] ++
        (⟨"Name", [("json", "name"), ("min", "abc")]⟩, .str "") ::
        [(⟨"Tags", [("min", "1")]⟩, .slice none)])) =
      ValidateStruct (.struct ([] ++
        (StructField.withoutMin ⟨"Name", [("json", "name"), ("min", "abc")]⟩, .str "") ::
        [(⟨"Tags", [("min", "1")]⟩, .slice none)]))) ∧
    checkField ⟨"Name", [("json", "name"), ("min", "abc")]⟩ (.str "") = .ok none :=
  ⟨rfl,
   (unparsable_min_skipped [] [(⟨"Tags", [("min", "1")]⟩, .slice none)]
      ⟨"Name", [("json", "name"), ("min", "abc")]⟩ (.str "") rfl).1,
   (unparsable_min_skipped [] [(⟨"Tags", [("min", "1")]⟩, .slice none)]
      ⟨"Name", [("json", "name"), ("min", "abc")]⟩ (.str "") rfl).2.2 (by decide)⟩

/-! ## C8: display names -/

theorem take_indexComma (l : List Char) :
    (match indexComma l with
      | some idx => l.take idx
      | none => l) = l.takeWhile (· ≠ ',') := by
  induction l with
  | nil => rfl
  | cons c cs ih =>
    by_cases hc : c = ','
    · simp [indexComma, hc]
    · have ht : (c :: cs).takeWhile (· ≠ ',') = c :: cs.takeWhile (· ≠ ',') := by
        simp [List.takeWhile, hc]
      rw [ht, ← ih]
      cases hi : indexComma cs with
      | none =>
        have h2 : indexComma (c :: cs) = none := by simp [indexComma, hc, hi]
        rw [h2]
      | some i =>
        have h2 : indexComma (c :: cs) = some (i + 1) := by simp [indexComma, hc, hi]
        rw [h2]
        rfl

theorem getFieldName_eq (field : StructField) :
    getFieldName field =
      if namePart (field.Tag.Get "json") ≠ "" ∧ namePart (field.Tag.Get "json") ≠ "-" then
        namePart (field.Tag.Get "json")
      else field.Name := by
  have hcut : (match indexComma (field.Tag.Get "json").data with
      | some idx => String.mk ((field.Tag.Get "json").data.take idx)
      | none => field.Tag.Get "json") = namePart (field.Tag.Get "json") := by
    unfold namePart
    rw [← take_indexComma]
    cases indexComma (field.Tag.Get "json").data <;> rfl
  unfold getFieldName
  simp only [hcut]
  by_cases h0 : field.Tag.Get "json" = ""
  · have hn : namePart "" = "" := rfl
    simp [h0, hn]
  · simp [h0]

/-- C8: `getFieldName` returns the part of the json tag before its first comma
when that part is neither empty nor `-`, and the declared identifier otherwise;
so a required empty field whose json tag is `foo` is reported as
`foo is required`, and one without a json tag under its declared identifier. -/
theorem getFieldName_resolves_display_name (field : StructField) :
    (getFieldName field =
      if namePart (field.Tag.Get "json") ≠ "" ∧ namePart (field.Tag.Get "json") ≠ "-" then
        namePart (field.Tag.Get "json")
      else field.Name) ∧
    (∀ v : Value, requiredViolated field v → field.Tag.Get "json" = "foo" →
      ValidateStruct (.struct [(field, v)]) = .ok (some ⟨400, "foo is required"⟩)) ∧
    (∀ v : Value, requiredViolated field v → (∀ kv ∈ field.Tag, kv.1 ≠ "json") →
      ValidateStruct (.struct [(field, v)]) =
        .ok (some ⟨400, field.Name ++ " is required"⟩)) := by
  refine ⟨getFieldName_eq field, ?_, ?_⟩
  · intro v hreq hjson
    have hname : getFieldName field = "foo" := by
      rw [getFieldName_eq, hjson, if_pos (by decide)]
      rfl
    have := validateStruct_first_required [] [] field v (by simp) hreq
    rw [List.nil_append] at this
    rw [this, requiredError, hname]
    rfl
  · intro v hreq hjson
    have hname : getFieldName field = field.Name := by
      rw [getFieldName_eq, get_of_absent _ _ hjson]
      simp [namePart]
    have := validateStruct_first_required [] [] field v (by simp) hreq
    rw [List.nil_append] at this
    rw [this, requiredError, hname]

/-- C8 at the json tags `email,omitempty`, `,omitempty`, `-` and at a field
without a json tag. -/
theorem getFieldName_resolves_display_name_witness :
    getFieldName ⟨"Email", [("json", "email,omitempty")]⟩ = "email" ∧
    getFieldName ⟨"Email", [("json", ",omitempty")]⟩ = "Email" ∧
    getFieldName ⟨"Email", [("json", "-")]⟩ = "Email" ∧
    getFieldName ⟨"Email", [("required", "true")]⟩ = "Email" ∧
    ValidateStruct (.struct [(⟨"Foo", [("json", "foo"), ("required", "true")]⟩, .str "")]) =
      .ok (some ⟨400, "foo is required"⟩) :=
  ⟨(getFieldName_resolves_display_name _).1.trans (by decide),
   (getFieldName_resolves_display_name _).1.trans (by decide),
   (getFieldName_resolves_display_name _).1.trans (by decide),
   (getFieldName_resolves_display_name _).1.trans (by decide),
   (getFieldName_resolves_display_name _).2.1 _ ⟨rfl, rfl⟩ rfl⟩

/-! ## C9: emptiness -/

/-- C9: a `uintptr` zero is an unsigned integer zero, and `isZeroValue` answers
false on it (the kind `Uintptr` is not among the cases of its switch), so a
required `uintptr` field holding zero passes validation, while the same zero in a
`uint` field is reported. -/
theorem isZeroValue_false_on_uintptr_zero :
    isZeroValue (.uint .Uintptr 0) = .ok false ∧
    isZeroValue (.uint .Uint 0) = .ok true ∧
    ValidateStruct (.struct [(⟨"Handle", [("required", "true")]⟩, .uint .Uintptr 0)]) =
      .ok none ∧
    ValidateStruct (.struct [(⟨"Handle", [("required", "true")]⟩, .uint .Uint 0)]) =
      .ok (some ⟨400, "Handle is required"⟩) := by
  decide

/-! ## C10: inputs that are not structures -/

theorem validateStruct_of_not_struct (v : Value) (h : (derefOnce v).Kind ≠ .Struct) :
    ValidateStruct v = .ok none := by
  by_cases hp : v.Kind = .Ptr
  · obtain ⟨target, rfl⟩ := kind_ptr v hp
    have h2 : (target.getD .invalid).Kind ≠ .Struct := h
    have he : (Value.ptr target).Elem = .ok (target.getD .invalid) := rfl
    unfold ValidateStruct
    simp only [hp, if_true, he]
    rw [if_pos h2]
  · have hd : derefOnce v = v := by
      cases v with
      | ptr target => exact absurd rfl hp
      | _ => rfl
    rw [hd] at h
    simp [ValidateStruct, hp, h]

/-- C10: an input that, after dereferencing at most one pointer, is not a
structure validates to nil. -/
theorem non_struct_input_is_valid (v : Value) (h : (derefOnce v).Kind ≠ .Struct) :
    ValidateStruct v = .ok none :=
  validateStruct_of_not_struct v h

/-- C10 at a bare number, a text, a nil slice, a map, nil, a nil pointer, a
pointer to a number and a pointer to a pointer to a structure. -/
theorem non_struct_input_is_valid_witness :
    ValidateStruct (.int .Int 42) = .ok none ∧
    ValidateStruct (.str "x") = .ok none ∧
    ValidateStruct (.slice none) = .ok none ∧
    ValidateStruct (.map (some [])) = .ok none ∧
    ValidateStruct .invalid = .ok none ∧
    ValidateStruct (.ptr none) = .ok none ∧
    ValidateStruct (.ptr (some (.int .Int 42))) = .ok none ∧
    ValidateStruct (.ptr (some (.ptr (some (.struct
      [(⟨"Name", [("required", "true")]⟩, .str "")]))))) = .ok none :=
  ⟨non_struct_input_is_valid _ (by decide), non_struct_input_is_valid _ (by decide),
   non_struct_input_is_valid _ (by decide), non_struct_input_is_valid _ (by decide),
   non_struct_input_is_valid _ (by decide), non_struct_input_is_valid _ (by decide),
   non_struct_input_is_valid _ (by decide), non_struct_input_is_valid _ (by decide)⟩

/-! ## C11: a pointer to a structure -/

theorem validateStruct_cases (v : Value) :
    (∃ fields, derefOnce v = .struct fields ∧ ValidateStruct v = validateFields fields) ∨
    ((derefOnce v).Kind ≠ .Struct ∧ ValidateStruct v = .ok none) := by
  by_cases hk : (derefOnce v).Kind = .Struct
  · left
    obtain ⟨fields, hf⟩ := kind_struct _ hk
    refine ⟨fields, hf, ?_⟩
    cases v with
    | ptr target =>
      cases target with
      | none => simp [derefOnce] at hf
      | some s =>
        have hs : s = .struct fields := hf
        rw [hs]
        rfl
    | struct fs =>
      have hs : Value.struct fs = .struct fields := hf
      rw [hs]
      rfl
    | _ => simp [derefOnce] at hf
  · right
    exact ⟨hk, validateStruct_of_not_struct v hk⟩

/-- C11: a pointer is dereferenced transparently. For every structure `s`,
`ValidateStruct` on a pointer to `s` returns exactly what it returns on `s`:
nil, or the same status and message. -/
theorem pointer_to_struct_validates_as_struct (s : Value) (h : s.Kind = .Struct) :
    ValidateStruct (.ptr (some s)) = ValidateStruct s := by
  obtain ⟨fields, rfl⟩ := kind_struct s h
  rfl

/-- C11 at a structure with a required empty field. -/
theorem pointer_to_struct_validates_as_struct_witness :
    ValidateStruct (.ptr (some (.struct [(⟨"Name", [("required", "true")]⟩, .str "")]))) =
      ValidateStruct (.struct [(⟨"Name", [("required", "true")]⟩, .str "")]) :=
  pointer_to_struct_validates_as_struct _ rfl

/-! ## C12: the one kind of error -/

theorem checkMin_some (ft : StructField) (v : Value) (e : AppError)
    (h : checkMin ft v = .ok (some e)) :
    e = minCharsError ft (ft.Tag.Get "min") ∨ e = minItemsError ft (ft.Tag.Get "min") := by
  by_cases h1 : v.Kind = .String
  · obtain ⟨s, rfl⟩ := kind_string v h1
    rw [checkMin_str] at h
    cases hA : Atoi (ft.Tag.Get "min") with
    | none => rw [hA] at h; simp at h
    | some N =>
      rw [hA] at h
      by_cases hl : (len s : Int) < N
      · simp only [hl, if_true] at h
        exact Or.inl (Option.some.inj (Except.ok.inj h)).symm
      · simp [hl] at h
  · by_cases h2 : v.Kind = .Slice
    · obtain ⟨elems, rfl⟩ := kind_slice v h2
      rw [checkMin_slice] at h
      cases hA : Atoi (ft.Tag.Get "min") with
      | none => rw [hA] at h; simp at h
      | some N =>
        rw [hA] at h
        by_cases hl : (((elems.getD []).length : Nat) : Int) < N
        · simp only [hl, if_true] at h
          exact Or.inr (Option.some.inj (Except.ok.inj h)).symm
        · simp [hl] at h
    · rw [checkMin_other ft v h1 h2] at h
      simp at h

theorem checkField_some (ft : StructField) (v : Value) (e : AppError)
    (h : checkField ft v = .ok (some e)) :
    e = requiredError ft ∨ e = minCharsError ft (ft.Tag.Get "min") ∨
      e = minItemsError ft (ft.Tag.Get "min") := by
  rw [checkField_eq] at h
  by_cases hr : ft.Tag.Get "required" = "true" ∧ zeroFlag v = true
  · rw [if_pos hr] at h
    exact Or.inl (Option.some.inj (Except.ok.inj h)).symm
  · rw [if_neg hr] at h
    exact Or.inr (checkMin_some ft v e h)

theorem validateFields_some (fields : List (StructField × Value)) (e : AppError)
    (h : validateFields fields = .ok (some e)) :
    ∃ p ∈ fields, checkField p.1 p.2 = .ok (some e) := by
  induction fields with
  | nil => simp [validateFields] at h
  | cons p rest ih =>
    obtain ⟨ft, v⟩ := p
    rw [validateFields_cons] at h
    obtain ⟨r, hr⟩ := checkField_total ft v
    rw [hr] at h
    cases r with
    | none =>
      obtain ⟨q, hq, hc⟩ := ih h
      exact ⟨q, List.mem_cons_of_mem _ hq, hc⟩
    | some e2 =>
      have : e2 = e := Option.some.inj (Except.ok.inj h)
      subst this
      exact ⟨(ft, v), List.mem_cons_self _ _, hr⟩

/-- C12: every error `ValidateStruct` returns carries HTTP status 400, and its
message is, for some field of the validated structure, `<displayName> is
required`, `<displayName> must be at least <min> characters long` or
`<displayName> must have at least <min> items`, where `<min>` is the text of that
field's min tag. -/
theorem validateStruct_error_is_400_with_known_message (v : Value) (e : AppError)
    (h : ValidateStruct v = .ok (some e)) :
    e.Code = 400 ∧ e.HTTPStatus = 400 ∧
    ∃ fields ft fv, derefOnce v = .struct fields ∧ (ft, fv) ∈ fields ∧
      (e.Message = getFieldName ft ++ " is required" ∨
       e.Message = getFieldName ft ++ " must be at least " ++ ft.Tag.Get "min" ++
         " characters long" ∨
       e.Message = getFieldName ft ++ " must have at least " ++ ft.Tag.Get "min" ++
         " items") := by
  rcases validateStruct_cases v with ⟨fields, hd, hv⟩ | ⟨-, hv⟩
  · rw [hv] at h
    obtain ⟨p, hp, hc⟩ := validateFields_some fields e h
    obtain ⟨ft, fv⟩ := p
    have hshape := checkField_some ft fv e hc
    have hcode : e.Code = 400 := by
      rcases hshape with rfl | rfl | rfl <;> rfl
    refine ⟨hcode, ?_, fields, ft, fv, hd, hp, ?_⟩
    · show (e.Code : Int) = 400
      rw [hcode]
      rfl
    · rcases hshape with rfl | rfl | rfl
      · exact Or.inl rfl
      · exact Or.inr (Or.inl rfl)
      · exact Or.inr (Or.inr rfl)
  · rw [hv] at h
    simp at h

/-- C12 at a structure whose second field is a slice below its minimum. -/
theorem validateStruct_error_is_400_with_known_message_witness :
    (⟨400, "tags must have at least 2 items"⟩ : AppError).Code = 400 ∧
    (⟨400, "tags must have at least 2 items"⟩ : AppError).HTTPStatus = 400 ∧
    ∃ fields ft fv,
      derefOnce (.struct [(⟨"Name", [("required", "true")]⟩, .str "Al"),
        (⟨"Tags", [("json", "tags"), ("min", "2")]⟩, .slice (some [.str "x"]))]) =
        .struct fields ∧
      (ft, fv) ∈ fields ∧
      ((⟨400, "tags must have at least 2 items"⟩ : AppError).Message =
          getFieldName ft ++ " is required" ∨
       (⟨400, "tags must have at least 2 items"⟩ : AppError).Message =
          getFieldName ft ++ " must be at least " ++ ft.Tag.Get "min" ++ " characters long" ∨
       (⟨400, "tags must have at least 2 items"⟩ : AppError).Message =
          getFieldName ft ++ " must have at least " ++ ft.Tag.Get "min" ++ " items") :=
  validateStruct_error_is_400_with_known_message
    (.struct [(⟨"Name", [("required", "true")]⟩, .str "Al"),
      (⟨"Tags", [("json", "tags"), ("min", "2")]⟩, .slice (some [.str "x"]))])
    ⟨400, "tags must have at least 2 items"⟩ rfl

/-! ## C13: no run-time fault -/

/-- C13: with every reflective accessor defined only on the kinds it supports,
`ValidateStruct` and `isZeroValue` finish without a fault on every input: nil, a
nil pointer, and structures with fields of any kind included. -/
theorem validateStruct_never_faults (v : Value) :
    (∃ r, ValidateStruct v = .ok r) ∧ (∃ b, isZeroValue v = .ok b) ∧
    (∀ p, ValidateStruct v ≠ .error p) ∧ (∀ p, isZeroValue v ≠ .error p) := by
  have hv : ∃ r, ValidateStruct v = .ok r := by
    rcases validateStruct_cases v with ⟨fields, -, hv⟩ | ⟨-, hv⟩
    · rw [hv]
      exact validateFields_total fields
    · exact ⟨none, hv⟩
  have hz : ∃ b, isZeroValue v = .ok b := ⟨_, isZeroValue_eq v⟩
  refine ⟨hv, hz, ?_, ?_⟩
  · intro p hp
    obtain ⟨r, hr⟩ := hv
    rw [hr] at hp
    exact absurd hp (by simp)
  · intro p hp
    obtain ⟨b, hb⟩ := hz
    rw [hb] at hp
    exact absurd hp (by simp)

/-! ## C14 to C16 and C20: the response writers -/

theorem append_newline_ne_empty (text : String) : text ++ "\n" ≠ "" := by
  intro h
  have h2 := congrArg String.data h
  simp [String.data_append] at h2

theorem writeHeader_final (w : ResponseWriter) (code : Int) (hw : w.status = none)
    (hs : code = 101 ∨ (200 ≤ code ∧ code ≤ 999)) :
    w.WriteHeader code = .ok ⟨w.header, some code, w.body, w.informational⟩ := by
  have h1 : ¬ (code < 100 ∨ code > 999) := by omega
  have h2 : ¬ (code ≥ 100 ∧ code ≤ 199 ∧ code ≠ StatusSwitchingProtocols) := by
    unfold StatusSwitchingProtocols
    omega
  unfold ResponseWriter.WriteHeader
  simp only [hw]
  rw [if_neg h1, if_neg h2]

theorem writeHeader_interim (w : ResponseWriter) (code : Int) (hw : w.status = none)
    (hs : 100 ≤ code ∧ code ≤ 199 ∧ code ≠ 101) :
    w.WriteHeader code = .ok ⟨w.header, none, w.body, w.informational ++ [code]⟩ := by
  have h1 : ¬ (code < 100 ∨ code > 999) := by omega
  have h2 : code ≥ 100 ∧ code ≤ 199 ∧ code ≠ StatusSwitchingProtocols := by
    unfold StatusSwitchingProtocols
    omega
  unfold ResponseWriter.WriteHeader
  simp only [hw]
  rw [if_neg h1, if_pos h2]

theorem writeHeader_invalid (w : ResponseWriter) (code : Int) (hw : w.status = none)
    (hs : code < 100 ∨ code > 999) :
    w.WriteHeader code = .error (.invalidWriteHeaderCode code) := by
  unfold ResponseWriter.WriteHeader
  simp only [hw]
  rw [if_pos hs]

theorem writeHeader_superfluous (w : ResponseWriter) (code s : Int)
    (hw : w.status = some s) : w.WriteHeader code = .ok w := by
  unfold ResponseWriter.WriteHeader
  simp only [hw]

theorem write_allowed (w : ResponseWriter) (data : String) (s : Int)
    (hw : w.status = some s) (ha : bodyAllowedForStatus s = true) (hd : data ≠ "") :
    w.Write data = .ok (⟨w.header, some s, w.body ++ data, w.informational⟩, true) := by
  unfold ResponseWriter.Write
  simp only [hw, hd, if_false, ha, if_true]

theorem write_refused (w : ResponseWriter) (data : String) (s : Int)
    (hw : w.status = some s) (ha : bodyAllowedForStatus s = false) (hd : data ≠ "") :
    w.Write data = .ok (w, false) := by
  unfold ResponseWriter.Write
  simp [hw, hd, ha]

theorem write_fresh (w : ResponseWriter) (data : String) (hw : w.status = none)
    (hd : data ≠ "") :
    w.Write data = .ok (⟨w.header, some 200, w.body ++ data, w.informational⟩, true) := by
  have h200 : w.WriteHeader StatusOK = .ok ⟨w.header, some 200, w.body, w.informational⟩ :=
    writeHeader_final w 200 hw (Or.inr (by decide))
  have ha : bodyAllowedForStatus 200 = true := by decide
  unfold ResponseWriter.Write
  simp only [hw, h200, hd, if_false, ha, if_true]

theorem bodyAllowed_of_final (s : Int) (h1 : 200 ≤ s) (h2 : s ≠ 204) (h3 : s ≠ 304) :
    bodyAllowedForStatus s = true := by
  unfold bodyAllowedForStatus StatusNoContent StatusNotModified
  have : ¬ (s ≥ 100 ∧ s ≤ 199) := by omega
  simp only [this, h2, h3, if_false]

theorem encode_written (Marshal : Response → Option String) (w : ResponseWriter)
    (r : Response) (text : String) (s : Int) (hw : w.status = some s)
    (ha : bodyAllowedForStatus s = true) (hm : Marshal r = some text) :
    encodeOrFallback Marshal w r =
      .ok ⟨w.header, some s, w.body ++ (text ++ "\n"), w.informational⟩ := by
  unfold encodeOrFallback json.Encode
  simp only [hm]
  rw [write_allowed w _ s hw ha (append_newline_ne_empty text)]

theorem encode_written_fresh (Marshal : Response → Option String) (w : ResponseWriter)
    (r : Response) (text : String) (hw : w.status = none) (hm : Marshal r = some text) :
    encodeOrFallback Marshal w r =
      .ok ⟨w.header, some 200, w.body ++ (text ++ "\n"), w.informational⟩ := by
  unfold encodeOrFallback json.Encode
  simp only [hm]
  rw [write_fresh w _ hw (append_newline_ne_empty text)]

theorem error_tail_keeps_status (w : ResponseWriter) (s : Int) (hw : w.status = some s) :
    ∃ w2,
      (match w.WriteHeader StatusInternalServerError with
        | Except.error p => (Except.error p : Except HTTPPanic ResponseWriter)
        | Except.ok w =>
          match w.Write ("Internal Server Error" ++ "\n") with
          | Except.error p => Except.error p
          | Except.ok (w, _) => Except.ok w) = Except.ok w2 ∧
      w2.status = some s ∧ w2.informational = w.informational ∧
      w2.header = w.header ∧
      w2.body = if bodyAllowedForStatus s then w.body ++ "Internal Server Error\n"
        else w.body := by
  rw [writeHeader_superfluous w _ s hw]
  simp only []
  cases ha : bodyAllowedForStatus s with
  | true =>
    rw [write_allowed w _ s hw ha (append_newline_ne_empty _)]
    exact ⟨_, rfl, rfl, rfl, rfl, by simp⟩
  | false =>
    rw [write_refused w _ s hw ha (append_newline_ne_empty _)]
    exact ⟨_, rfl, hw, rfl, rfl, by simp⟩

theorem fallback_keeps_status (w : ResponseWriter) (s : Int) (hw : w.status = some s) :
    ∃ w2, http.Error w "Internal Server Error" StatusInternalServerError = .ok w2 ∧
      w2.status = some s ∧ w2.informational = w.informational ∧
      w2.body = if bodyAllowedForStatus s then w.body ++ "Internal Server Error\n"
        else w.body := by
  obtain ⟨w2, h2, hs, hi, -, hb⟩ := error_tail_keeps_status
    ⟨((w.header.Del "Content-Length").Set "Content-Type" "text/plain; charset=utf-8").Set
      "X-Content-Type-Options" "nosniff", w.status, w.body, w.informational⟩ s hw
  exact ⟨w2, h2, hs, hi, hb⟩

theorem encode_keeps_status (Marshal : Response → Option String) (w : ResponseWriter)
    (r : Response) (s : Int) (hw : w.status = some s) :
    ∃ w2, encodeOrFallback Marshal w r = .ok w2 ∧ w2.status = some s := by
  unfold encodeOrFallback json.Encode
  cases hm : Marshal r with
  | none =>
    simp only []
    obtain ⟨w2, h2, hs, -, -⟩ := fallback_keeps_status w s hw
    exact ⟨w2, h2, hs⟩
  | some text =>
    simp only []
    cases ha : bodyAllowedForStatus s with
    | true =>
      rw [write_allowed w _ s hw ha (append_newline_ne_empty text)]
      exact ⟨_, rfl, rfl⟩
    | false =>
      rw [write_refused w _ s hw ha (append_newline_ne_empty text)]
      simp only []
      obtain ⟨w2, h2, hs, -, -⟩ := fallback_keeps_status w s hw
      exact ⟨w2, h2, hs⟩

theorem encode_failed (Marshal : Response → Option String) (w : ResponseWriter)
    (r : Response) (s : Int) (hw : w.status = some s) (hm : Marshal r = none) :
    ∃ w2, encodeOrFallback Marshal w r = .ok w2 ∧ w2.status = some s ∧
      w2.body = if bodyAllowedForStatus s then w.body ++ "Internal Server Error\n"
        else w.body := by
  unfold encodeOrFallback json.Encode
  simp only [hm]
  obtain ⟨w2, h2, hs, -, hb⟩ := fallback_keeps_status w s hw
  exact ⟨w2, h2, hs, hb⟩

theorem writeJSONResponse_final (Marshal : Response → Option String) (w : ResponseWriter)
    (statusCode : Int) (data : Value) (hw : w.status = none)
    (hs : statusCode = 101 ∨ (200 ≤ statusCode ∧ statusCode ≤ 999)) :
    WriteJSONResponse Marshal w statusCode data =
      encodeOrFallback Marshal
        ⟨w.header.Set "Content-Type" "application/json", some statusCode, w.body,
          w.informational⟩
        ⟨decide (statusCode ≥ 200 ∧ statusCode < 300), data, none⟩ := by
  unfold WriteJSONResponse
  simp only []
  rw [writeHeader_final (w.SetHeader "Content-Type" "application/json") statusCode hw hs]
  rfl

theorem writeJSONResponse_interim (Marshal : Response → Option String) (w : ResponseWriter)
    (statusCode : Int) (data : Value) (hw : w.status = none)
    (hs : 100 ≤ statusCode ∧ statusCode ≤ 199 ∧ statusCode ≠ 101) :
    WriteJSONResponse Marshal w statusCode data =
      encodeOrFallback Marshal
        ⟨w.header.Set "Content-Type" "application/json", none, w.body,
          w.informational ++ [statusCode]⟩
        ⟨decide (statusCode ≥ 200 ∧ statusCode < 300), data, none⟩ := by
  unfold WriteJSONResponse
  simp only []
  rw [writeHeader_interim (w.SetHeader "Content-Type" "application/json") statusCode hw hs]
  rfl

theorem writeJSONResponse_invalid (Marshal : Response → Option String) (w : ResponseWriter)
    (statusCode : Int) (data : Value) (hw : w.status = none)
    (hs : statusCode < 100 ∨ statusCode > 999) :
    WriteJSONResponse Marshal w statusCode data =
      .error (.invalidWriteHeaderCode statusCode) := by
  unfold WriteJSONResponse
  simp only []
  rw [writeHeader_invalid (w.SetHeader "Content-Type" "application/json") statusCode hw hs]

theorem writeErrorResponse_final (StatusText : Int → String)
    (Marshal : Response → Option String) (w : ResponseWriter) (e : AppError)
    (hw : w.status = none)
    (hs : e.HTTPStatus = 101 ∨ (200 ≤ e.HTTPStatus ∧ e.HTTPStatus ≤ 999)) :
    WriteErrorResponse StatusText Marshal w e =
      encodeOrFallback Marshal
        ⟨w.header.Set "Content-Type" "application/json", some e.HTTPStatus, w.body,
          w.informational⟩
        ⟨false, .invalid, some ⟨StatusText e.HTTPStatus, e.Message⟩⟩ := by
  unfold WriteErrorResponse
  simp only []
  rw [writeHeader_final (w.SetHeader "Content-Type" "application/json") e.HTTPStatus hw hs]
  rfl

/-- C14, as stated, fails: for an application error whose status is 0 the call
of `WriteHeader` stops with a fault, so no status is written and no envelope is
built; and under status 304, which allows no body, the status is written but
the write of the envelope is refused and the fallback of response.go 51-53
runs, leaving an empty body. -/
theorem writeErrorResponse_invalid_or_bodyless_status :
    AppError.HTTPStatus ⟨0, "boom"⟩ = 0 ∧
    WriteErrorResponse (fun _ => "") (fun _ => some "envelope") ⟨[], none, "", []⟩
      ⟨0, "boom"⟩ = .error (.invalidWriteHeaderCode 0) ∧
    WriteErrorResponse (fun _ => "Not Modified") (fun _ => some "envelope")
      ⟨[], none, "", []⟩ ⟨304, "boom"⟩ =
      .ok ⟨[("Content-Type", "text/plain; charset=utf-8"),
            ("X-Content-Type-Options", "nosniff")], some 304, "", []⟩ := by
  decide

/-- C14, amended: for every application error `e` whose `HTTPStatus()` is 101 or
lies in 200..999, on a writer whose header is not yet written,
`WriteErrorResponse` finishes without a fault with `e.HTTPStatus()` as the
status of the response, and what it hands to the encoder is the envelope with
`success = false`, no data, `error.code` the status text of `e.HTTPStatus()` and
`error.message` the message of `e`; when the status allows a body (it is at
least 200 and neither 204 nor 304) and the envelope serializes, the body written
is that serialization followed by a newline. -/
theorem writeErrorResponse_status_and_envelope (StatusText : Int → String)
    (Marshal : Response → Option String) (w : ResponseWriter) (e : AppError)
    (hw : w.status = none)
    (hs : e.HTTPStatus = 101 ∨ (200 ≤ e.HTTPStatus ∧ e.HTTPStatus ≤ 999)) :
    (∃ w2, WriteErrorResponse StatusText Marshal w e = .ok w2 ∧
      w2.status = some e.HTTPStatus) ∧
    WriteErrorResponse StatusText Marshal w e =
      encodeOrFallback Marshal
        ⟨w.header.Set "Content-Type" "application/json", some e.HTTPStatus, w.body,
          w.informational⟩
        ⟨false, .invalid, some ⟨StatusText e.HTTPStatus, e.Message⟩⟩ ∧
    (200 ≤ e.HTTPStatus → e.HTTPStatus ≠ 204 → e.HTTPStatus ≠ 304 → ∀ text : String,
      Marshal ⟨false, .invalid, some ⟨StatusText e.HTTPStatus, e.Message⟩⟩ = some text →
      WriteErrorResponse StatusText Marshal w e =
        .ok ⟨w.header.Set "Content-Type" "application/json", some e.HTTPStatus,
          w.body ++ (text ++ "\n"), w.informational⟩) := by
  have hfin := writeErrorResponse_final StatusText Marshal w e hw hs
  refine ⟨?_, hfin, ?_⟩
  · rw [hfin]
    exact encode_keeps_status Marshal _ _ e.HTTPStatus rfl
  · intro h200 h204 h304 text hm
    rw [hfin]
    exact encode_written Marshal _ _ text e.HTTPStatus rfl
      (bodyAllowed_of_final _ h200 h204 h304) hm

/-- C14 amended, at the error of a missing name on a fresh writer, with an
encoder that prints the error part of the envelope. -/
theorem writeErrorResponse_status_and_envelope_witness :
    WriteErrorResponse (fun _ => "Bad Request")
      (fun r => some (toString r.Success ++ "," ++ (r.Error.map ErrorInfo.Code).getD "" ++ "," ++
        (r.Error.map ErrorInfo.Message).getD ""))
      ⟨[], none, "", []⟩ ⟨400, "name is required"⟩ =
      .ok ⟨Header.Set [] "Content-Type" "application/json",
        some (AppError.HTTPStatus ⟨400, "name is required"⟩),
        "" ++ ("false,Bad Request,name is required" ++ "\n"), []⟩ :=
  (writeErrorResponse_status_and_envelope (fun _ => "Bad Request")
    (fun r => some (toString r.Success ++ "," ++ (r.Error.map ErrorInfo.Code).getD "" ++ "," ++
      (r.Error.map ErrorInfo.Message).getD ""))
    ⟨[], none, "", []⟩ ⟨400, "name is required"⟩ rfl (Or.inr (by decide))).2.2
    (by decide) (by decide) (by decide) "false,Bad Request,name is required" rfl

/-- C15: on a writer whose header is not yet written, `WriteSuccessResponse`
writes status 200 and `WriteCreatedResponse` status 201, and the body each
writes is the serialization of the envelope with `success = true`, the payload as
data and no error; `WriteNoContentResponse` writes status 204 and leaves the
body and the headers untouched. -/
theorem success_created_and_no_content (Marshal : Response → Option String)
    (w : ResponseWriter) (data : Value) (hw : w.status = none) :
    (∃ w2, WriteSuccessResponse Marshal w data = .ok w2 ∧ w2.status = some 200) ∧
    (∃ w2, WriteCreatedResponse Marshal w data = .ok w2 ∧ w2.status = some 201) ∧
    (∀ text : String, Marshal ⟨true, data, none⟩ = some text →
      WriteSuccessResponse Marshal w data =
        .ok ⟨w.header.Set "Content-Type" "application/json", some 200,
          w.body ++ (text ++ "\n"), w.informational⟩ ∧
      WriteCreatedResponse Marshal w data =
        .ok ⟨w.header.Set "Content-Type" "application/json", some 201,
          w.body ++ (text ++ "\n"), w.informational⟩) ∧
    WriteNoContentResponse w = .ok ⟨w.header, some 204, w.body, w.informational⟩ := by
  have h200 := writeJSONResponse_final Marshal w 200 data hw (Or.inr (by decide))
  have h201 := writeJSONResponse_final Marshal w 201 data hw (Or.inr (by decide))
  have hd200 : decide ((200 : Int) ≥ 200 ∧ (200 : Int) < 300) = true := by decide
  have hd201 : decide ((201 : Int) ≥ 200 ∧ (201 : Int) < 300) = true := by decide
  rw [hd200] at h200
  rw [hd201] at h201
  refine ⟨?_, ?_, ?_, ?_⟩
  · show ∃ w2, WriteJSONResponse Marshal w 200 data = .ok w2 ∧ _
    rw [h200]
    exact encode_keeps_status Marshal _ _ 200 rfl
  · show ∃ w2, WriteJSONResponse Marshal w 201 data = .ok w2 ∧ _
    rw [h201]
    exact encode_keeps_status Marshal _ _ 201 rfl
  · intro text hm
    constructor
    · show WriteJSONResponse Marshal w 200 data = _
      rw [h200]
      exact encode_written Marshal _ _ text 200 rfl (by decide) hm
    · show WriteJSONResponse Marshal w 201 data = _
      rw [h201]
      exact encode_written Marshal _ _ text 201 rfl (by decide) hm
  · exact writeHeader_final w 204 hw (Or.inr (by decide))

/-- C15 on a fresh writer. -/
theorem success_created_and_no_content_witness :
    (WriteSuccessResponse (fun r => some (toString r.Success)) ⟨[], none, "", []⟩
        (.str "hello") =
      .ok ⟨Header.Set [] "Content-Type" "application/json", some 200,
        "" ++ ("true" ++ "\n"), []⟩ ∧
     WriteCreatedResponse (fun r => some (toString r.Success)) ⟨[], none, "", []⟩
        (.str "hello") =
      .ok ⟨Header.Set [] "Content-Type" "application/json", some 201,
        "" ++ ("true" ++ "\n"), []⟩) ∧
    WriteNoContentResponse ⟨[], none, "", []⟩ = .ok ⟨[], some 204, "", []⟩ :=
  ⟨(success_created_and_no_content (fun r => some (toString r.Success)) ⟨[], none, "", []⟩
      (.str "hello") rfl).2.2.1 "true" rfl,
   (success_created_and_no_content (fun r => some (toString r.Success)) ⟨[], none, "", []⟩
      (.str "hello") rfl).2.2.2⟩

/-- C16: when the envelope cannot be serialized (here a channel as payload, on
which `json.Marshal` fails), `WriteJSONResponse` has already written the header
with status 200; the `WriteHeader(500)` of the fallback comes second and does
not count, so the response keeps status 200 with the fallback text as body. The
same holds for every status code that fixes the final status (101 and
200..999) and every payload, and for `WriteErrorResponse`. -/
theorem serialization_failure_keeps_first_status :
    WriteJSONResponse (fun _ => none) ⟨[], none, "", []⟩ 200 (.chan false 0) =
      .ok ⟨[("Content-Type", "text/plain; charset=utf-8"),
            ("X-Content-Type-Options", "nosniff")], some 200,
        "Internal Server Error\n", []⟩ ∧
    (∀ w2, WriteJSONResponse (fun _ => none) ⟨[], none, "", []⟩ 200 (.chan false 0) =
      .ok w2 → w2.status ≠ some 500) ∧
    (∀ (Marshal : Response → Option String) (w : ResponseWriter) (statusCode : Int)
      (data : Value), w.status = none →
      statusCode = 101 ∨ (200 ≤ statusCode ∧ statusCode ≤ 999) →
      Marshal ⟨decide (statusCode ≥ 200 ∧ statusCode < 300), data, none⟩ = none →
      ∃ w2, WriteJSONResponse Marshal w statusCode data = .ok w2 ∧
        w2.status = some statusCode) ∧
    (∀ (StatusText : Int → String) (Marshal : Response → Option String)
      (w : ResponseWriter) (e : AppError), w.status = none →
      e.HTTPStatus = 101 ∨ (200 ≤ e.HTTPStatus ∧ e.HTTPStatus ≤ 999) →
      Marshal ⟨false, .invalid, some ⟨StatusText e.HTTPStatus, e.Message⟩⟩ = none →
      ∃ w2, WriteErrorResponse StatusText Marshal w e = .ok w2 ∧
        w2.status = some e.HTTPStatus) := by
  have hc : WriteJSONResponse (fun _ => none) ⟨[], none, "", []⟩ 200 (.chan false 0) =
      .ok ⟨[("Content-Type", "text/plain; charset=utf-8"),
            ("X-Content-Type-Options", "nosniff")], some 200,
        "Internal Server Error\n", []⟩ := by decide
  refine ⟨hc, ?_, ?_, ?_⟩
  · intro w2 h2
    rw [hc] at h2
    have : w2.status = some 200 := by
      rw [← Except.ok.inj h2]
    rw [this]
    decide
  · intro Marshal w statusCode data hw hs hm
    rw [writeJSONResponse_final Marshal w statusCode data hw hs]
    obtain ⟨w2, h2, hst, -⟩ := encode_failed Marshal
      ⟨w.header.Set "Content-Type" "application/json", some statusCode, w.body,
        w.informational⟩ _ statusCode rfl hm
    exact ⟨w2, h2, hst⟩
  · intro StatusText Marshal w e hw hs hm
    rw [writeErrorResponse_final StatusText Marshal w e hw hs]
    obtain ⟨w2, h2, hst, -⟩ := encode_failed Marshal
      ⟨w.header.Set "Content-Type" "application/json", some e.HTTPStatus, w.body,
        w.informational⟩ _ e.HTTPStatus rfl hm
    exact ⟨w2, h2, hst⟩

/-- C20, as stated, fails: under the status codes 0 and 1000, which are not 2xx,
`WriteJSONResponse` stops with the fault of `WriteHeader` on response.go 26,
before any envelope is built. -/
theorem writeJSONResponse_invalid_status_builds_no_envelope :
    WriteJSONResponse (fun _ => some "envelope") ⟨[], none, "", []⟩ 0 (.str "payload") =
      .error (.invalidWriteHeaderCode 0) ∧
    WriteJSONResponse (fun _ => some "envelope") ⟨[], none, "", []⟩ 1000 (.str "payload") =
      .error (.invalidWriteHeaderCode 1000) := by
  decide

/-- C20, amended: for every status code from 100 to 999 and every payload,
`WriteJSONResponse` on a writer whose header is not yet written builds one
envelope and hands it to the encoder: its success flag is true exactly when
`200 ≤ statusCode < 300`, its data is the payload and its error is absent. So
under a status outside the 2xx range the envelope has `success = false`, still
carries the data and has no error object; and unless the status is 101, 204 or
304, which allow no body, the body written is the serialization of that
envelope followed by a newline. -/
theorem writeJSONResponse_envelope (statusCode : Int) (data : Value)
    (hv : 100 ≤ statusCode ∧ statusCode ≤ 999) :
    ∃ r : Response,
      (r.Success = true ↔ 200 ≤ statusCode ∧ statusCode < 300) ∧
      (¬ (200 ≤ statusCode ∧ statusCode < 300) → r.Success = false) ∧
      r.Data = data ∧ r.Error = none ∧
      ∀ (Marshal : Response → Option String) (w : ResponseWriter), w.status = none →
        (∃ w1, (w.SetHeader "Content-Type" "application/json").WriteHeader statusCode =
            .ok w1 ∧
          WriteJSONResponse Marshal w statusCode data = encodeOrFallback Marshal w1 r) ∧
        (statusCode ≠ 101 → statusCode ≠ 204 → statusCode ≠ 304 → ∀ text : String,
          Marshal r = some text →
          ∃ w2, WriteJSONResponse Marshal w statusCode data = .ok w2 ∧
            w2.body = w.body ++ (text ++ "\n")) := by
  refine ⟨⟨decide (statusCode ≥ 200 ∧ statusCode < 300), data, none⟩, by simp, ?_, rfl, rfl,
    ?_⟩
  · intro hn
    simpa using hn
  · intro Marshal w hw
    have hw1 : (w.SetHeader "Content-Type" "application/json").status = none := hw
    by_cases hfin : statusCode = 101 ∨ (200 ≤ statusCode ∧ statusCode ≤ 999)
    · have hfinal := writeJSONResponse_final Marshal w statusCode data hw hfin
      refine ⟨⟨_, writeHeader_final _ statusCode hw1 hfin, hfinal⟩, ?_⟩
      intro h101 h204 h304 text hm
      have h200 : 200 ≤ statusCode := by omega
      rw [hfinal, encode_written Marshal _ _ text statusCode rfl
        (bodyAllowed_of_final _ h200 h204 h304) hm]
      exact ⟨_, rfl, rfl⟩
    · have hint : 100 ≤ statusCode ∧ statusCode ≤ 199 ∧ statusCode ≠ 101 := by omega
      have hinterim := writeJSONResponse_interim Marshal w statusCode data hw hint
      refine ⟨⟨_, writeHeader_interim _ statusCode hw1 hint, hinterim⟩, ?_⟩
      intro _ _ _ text hm
      rw [hinterim, encode_written_fresh Marshal _ _ text rfl hm]
      exact ⟨_, rfl, rfl⟩

/-- C20 amended, at status 404 with a payload. -/
theorem writeJSONResponse_envelope_witness :
    ∃ r : Response,
      (r.Success = true ↔ 200 ≤ (404 : Int) ∧ (404 : Int) < 300) ∧
      (¬ (200 ≤ (404 : Int) ∧ (404 : Int) < 300) → r.Success = false) ∧
      r.Data = .str "payload" ∧ r.Error = none ∧
      ∀ (Marshal : Response → Option String) (w : ResponseWriter), w.status = none →
        (∃ w1, (w.SetHeader "Content-Type" "application/json").WriteHeader 404 = .ok w1 ∧
          WriteJSONResponse Marshal w 404 (.str "payload") =
            encodeOrFallback Marshal w1 r) ∧
        ((404 : Int) ≠ 101 → (404 : Int) ≠ 204 → (404 : Int) ≠ 304 → ∀ text : String,
          Marshal r = some text →
          ∃ w2, WriteJSONResponse Marshal w 404 (.str "payload") = .ok w2 ∧
            w2.body = w.body ++ (text ++ "\n")) :=
  writeJSONResponse_envelope 404 (.str "payload") (by decide)


/-! ## C17 and C18: the query parameters -/

theorem values_get_absent (q : Values) (key : String) (h : ∀ kv ∈ q, kv.1 ≠ key) :
    Values.Get q key = "" := by
  induction q with
  | nil => rfl
  | cons kv rest ih =>
    obtain ⟨k, vs⟩ := kv
    have hk : k ≠ key := h (k, vs) (List.mem_cons_self _ _)
    simp only [Values.Get, if_neg hk]
    exact ih (fun kv hkv => h kv (List.mem_cons_of_mem _ hkv))

theorem getLimitParam_eq (r : Request) :
    GetLimitParam r =
      match Atoi (r.Query.Get "limit") with
      | some n => if 1 ≤ n ∧ n ≤ 100 then n else 10
      | none => 10 := by
  unfold GetLimitParam
  by_cases h0 : r.Query.Get "limit" = ""
  · simp [h0, Atoi_empty]
  · simp only [h0, if_false]
    cases Atoi (r.Query.Get "limit") with
    | none => rfl
    | some n =>
      by_cases hn : 1 ≤ n ∧ n ≤ 100
      · have : ¬ (n < 1 ∨ n > 100) := by omega
        simp [hn, this]
      · have : n < 1 ∨ n > 100 := by omega
        simp [hn, this]

theorem getPageParam_eq (r : Request) :
    GetPageParam r =
      match Atoi (r.Query.Get "page") with
      | some n => if 1 ≤ n then n else 1
      | none => 1 := by
  unfold GetPageParam
  by_cases h0 : r.Query.Get "page" = ""
  · simp [h0, Atoi_empty]
  · simp only [h0, if_false]
    cases Atoi (r.Query.Get "page") with
    | none => rfl
    | some n =>
      by_cases hn : 1 ≤ n
      · have : ¬ (n < 1) := by omega
        simp [hn, this]
      · have : n < 1 := by omega
        simp [hn, this]

/-- C17: `GetLimitParam` returns the integer value of the limit parameter when
it parses as an integer between 1 and 100 inclusive, and 10 in every other case:
the parameter absent or empty, not an integer, below 1, or above 100 (so an
over-large limit yields 10, not 100). The result always lies in `[1, 100]`. -/
theorem getLimitParam_value_or_10 (r : Request) :
    (∀ n : Int, Atoi (r.Query.Get "limit") = some n → 1 ≤ n → n ≤ 100 →
      GetLimitParam r = n) ∧
    (∀ n : Int, Atoi (r.Query.Get "limit") = some n → n < 1 ∨ 100 < n →
      GetLimitParam r = 10) ∧
    (Atoi (r.Query.Get "limit") = none → GetLimitParam r = 10) ∧
    ((∀ kv ∈ r.Query, kv.1 ≠ "limit") → GetLimitParam r = 10) ∧
    (r.Query.Get "limit" = "" → GetLimitParam r = 10) ∧
    (1 ≤ GetLimitParam r ∧ GetLimitParam r ≤ 100) := by
  refine ⟨?_, ?_, ?_, ?_, ?_, ?_⟩
  · intro n hn h1 h2
    rw [getLimitParam_eq, hn]
    simp [h1, h2]
  · intro n hn h
    rw [getLimitParam_eq, hn]
    have : ¬ (1 ≤ n ∧ n ≤ 100) := by omega
    simp [this]
  · intro hn
    rw [getLimitParam_eq, hn]
  · intro habs
    rw [getLimitParam_eq, values_get_absent _ _ habs, Atoi_empty]
  · intro he
    rw [getLimitParam_eq, he, Atoi_empty]
  · rw [getLimitParam_eq]
    cases Atoi (r.Query.Get "limit") with
    | none => simp
    | some n =>
      by_cases hn : 1 ≤ n ∧ n ≤ 100
      · simp [hn]
      · simp [hn]

/-- C17 at the limits 100, 101, 0, `abc` and at a query without a limit. -/
theorem getLimitParam_value_or_10_witness :
    GetLimitParam ⟨[("page", ["2"]), ("limit", ["100"])]⟩ = 100 ∧
    GetLimitParam ⟨[("limit", ["101"])]⟩ = 10 ∧
    GetLimitParam ⟨[("limit", ["0"])]⟩ = 10 ∧
    GetLimitParam ⟨[("limit", ["abc"])]⟩ = 10 ∧
    GetLimitParam ⟨[("page", ["2"])]⟩ = 10 :=
  ⟨(getLimitParam_value_or_10 _).1 100 rfl (by decide) (by decide),
   (getLimitParam_value_or_10 _).2.1 101 rfl (by decide),
   (getLimitParam_value_or_10 _).2.1 0 rfl (by decide),
   (getLimitParam_value_or_10 _).2.2.1 rfl,
   (getLimitParam_value_or_10 _).2.2.2.1 (by simp)⟩

/-- C18: `GetPageParam` returns the integer value of the page parameter when it
parses as an integer that is at least 1, and 1 in every other case: the
parameter absent or empty, not an integer, zero or negative. The result is
always at least 1. -/
theorem getPageParam_value_or_1 (r : Request) :
    (∀ n : Int, Atoi (r.Query.Get "page") = some n → 1 ≤ n → GetPageParam r = n) ∧
    (∀ n : Int, Atoi (r.Query.Get "page") = some n → n < 1 → GetPageParam r = 1) ∧
    (Atoi (r.Query.Get "page") = none → GetPageParam r = 1) ∧
    ((∀ kv ∈ r.Query, kv.1 ≠ "page") → GetPageParam r = 1) ∧
    (r.Query.Get "page" = "" → GetPageParam r = 1) ∧
    1 ≤ GetPageParam r := by
  refine ⟨?_, ?_, ?_, ?_, ?_, ?_⟩
  · intro n hn h1
    rw [getPageParam_eq, hn]
    simp [h1]
  · intro n hn h
    rw [getPageParam_eq, hn]
    have : ¬ (1 ≤ n) := by omega
    simp [this]
  · intro hn
    rw [getPageParam_eq, hn]
  · intro habs
    rw [getPageParam_eq, values_get_absent _ _ habs, Atoi_empty]
  · intro he
    rw [getPageParam_eq, he, Atoi_empty]
  · rw [getPageParam_eq]
    cases Atoi (r.Query.Get "page") with
    | none => simp
    | some n =>
      by_cases hn : 1 ≤ n
      · simp [hn]
      · simp [hn]

/-- C18 at the pages 12, 0, -3, `x` and at a query without a page. -/
theorem getPageParam_value_or_1_witness :
    GetPageParam ⟨[("page", ["12"])]⟩ = 12 ∧
    GetPageParam ⟨[("page", ["0"])]⟩ = 1 ∧
    GetPageParam ⟨[("page", ["-3"])]⟩ = 1 ∧
    GetPageParam ⟨[("page", ["x"])]⟩ = 1 ∧
    GetPageParam ⟨[("limit", ["5"])]⟩ = 1 :=
  ⟨(getPageParam_value_or_1 _).1 12 rfl (by decide),
   (getPageParam_value_or_1 _).2.1 0 rfl (by decide),
   (getPageParam_value_or_1 _).2.1 (-3) rfl (by decide),
   (getPageParam_value_or_1 _).2.2.1 rfl,
   (getPageParam_value_or_1 _).2.2.2.1 (by simp)⟩

/-! ## C19: the required tag counts only as the text true -/

theorem minCharsError_message_ne_required (ft : StructField) (shown name : String) :
    (minCharsError ft shown).Message ≠ name ++ " is required" := by
  intro h
  have h2 := congrArg (fun s : String => s.data.reverse) h
  simp [minCharsError, String.data_append] at h2

theorem minItemsError_message_ne_required (ft : StructField) (shown name : String) :
    (minItemsError ft shown).Message ≠ name ++ " is required" := by
  intro h
  have h2 := congrArg (fun s : String => s.data.reverse) h
  simp [minItemsError, String.data_append] at h2

theorem getFieldName_withoutRequired (ft : StructField) :
    getFieldName ft.withoutRequired = getFieldName ft := by
  have h : ft.withoutRequired.Tag.Get "json" = ft.Tag.Get "json" :=
    get_erase_other ft.Tag "required" "json" (by decide)
  unfold getFieldName
  rw [h]
  rfl

theorem checkMin_congr (ft ft2 : StructField) (v : Value)
    (hm : ft2.Tag.Get "min" = ft.Tag.Get "min") (hn : getFieldName ft2 = getFieldName ft) :
    checkMin ft2 v = checkMin ft v := by
  unfold checkMin
  simp only [hm, hn]

theorem checkField_withoutRequired (ft : StructField) (v : Value)
    (h : ft.Tag.Get "required" ≠ "true") :
    checkField ft.withoutRequired v = checkField ft v := by
  have hr : ft.withoutRequired.Tag.Get "required" ≠ "true" := by
    have : ft.withoutRequired.Tag.Get "required" = "" := get_erase_self ft.Tag "required"
    rw [this]
    decide
  rw [checkField_untagged_required ft v h, checkField_untagged_required _ v hr]
  exact checkMin_congr ft ft.withoutRequired v
    (get_erase_other ft.Tag "required" "min" (by decide)) (getFieldName_withoutRequired ft)

/-- C19: the presence constraint is enforced only when the required tag is
exactly the text `true`. A field whose required tag is any other text passes the
required check whatever its value, the violation its iteration may produce is
never an `is required` message, and the structure validates exactly as it does
with that tag removed. -/
theorem required_enforced_only_for_true (pre post : List (StructField × Value))
    (ft : StructField) (v : Value) (h : ft.Tag.Get "required" ≠ "true") :
    checkRequired ft v = .ok none ∧
    (∀ e : AppError, checkField ft v = .ok (some e) →
      ∀ name : String, e.Message ≠ name ++ " is required") ∧
    ValidateStruct (.struct (pre ++ (ft, v) :: post)) =
      ValidateStruct (.struct (pre ++ (ft.withoutRequired, v) :: post)) := by
  refine ⟨?_, ?_, ?_⟩
  · rw [checkRequired_eq, if_neg (fun hc => h hc.1)]
  · intro e he name
    rw [checkField_untagged_required ft v h] at he
    rcases checkMin_some ft v e he with h1 | h1
    · rw [h1]
      exact minCharsError_message_ne_required ft _ name
    · rw [h1]
      exact minItemsError_message_ne_required ft _ name
  · rw [ValidateStruct_struct, ValidateStruct_struct]
    exact (validateFields_congr_at pre post ft ft.withoutRequired v
      (checkField_withoutRequired ft v h)).symm

/-- C19 at an empty text field tagged `required:"TRUE"`. -/
theorem required_enforced_only_for_true_witness :
    checkRequired ⟨"Name", [("required", "TRUE")]⟩ (.str "") = .ok none ∧
    ValidateStruct (.struct ([] ++ (⟨"Name", [("required", "TRUE")]⟩, .str "") ::
        [(⟨"Age", [("required", "1")]⟩, .int .Int 0)])) =
      ValidateStruct (.struct ([] ++
        (StructField.withoutRequired ⟨"Name", [("required", "TRUE")]⟩, .str "") ::
        [(⟨"Age", [("required", "1")]⟩, .int .Int 0)])) :=
  ⟨(required_enforced_only_for_true [] [] ⟨"Name", [("required", "TRUE")]⟩ (.str "")
      (by decide)).1,
   (required_enforced_only_for_true [] [(⟨"Age", [("required", "1")]⟩, .int .Int 0)]
      ⟨"Name", [("required", "TRUE")]⟩ (.str "") (by decide)).2.2⟩

end httputils
